import Mathlib

/-!
Verification development for the ReyMato game server
(`src/ReyMatoRoom.ts`, `src/GameState.ts`).

The room logic is embedded shallowly: the Colyseus replicated state tree
(`GameState.ts`) and the room's in-memory fields become Lean structures, and
each method of `ReyMatoRoom` that participates in the game rules becomes a
pure function from room state to room state plus the list of broadcast
events.  JavaScript numbers are modelled as rationals (`ℚ`); every numeric
comparison the rules make is a sign test or an exact comparison, so the
idealisation only drops float rounding.  `Math.hypot` appears in the source
only under comparisons with nonnegative constants or as a divisor, so it is
modelled via the exact square of the distance.  The players `MapSchema` is a
list in insertion order (Colyseus map iteration order), which is what
`getPlayerByRole` (a linear scan) observes.

Ghost instrumentation (absent from the source, used only to state theorems):
`penaltyDispatches` counts invocations of `handleDoubleBouncePenalty`,
`enqueueLog` records every id ever pushed onto the waiting queue, and
`lastServeDistSq` records the squared planar server-to-target distance whose
square root the serve impulse divides by.
-/

namespace ReyMato

/-- Physics body of a player or of the ball (position and velocity only;
masses, shapes and materials belong to the physics engine, which is outside
the rules core). -/
structure BodyState where
  x : ℚ
  y : ℚ
  z : ℚ
  vx : ℚ
  vy : ℚ
  vz : ℚ
  deriving Repr, DecidableEq

/-- `PlayerState` from `GameState.ts`. -/
structure PlayerState where
  id : String
  nickname : String
  role : String
  x : ℚ
  y : ℚ
  z : ℚ
  rotY : ℚ
  active : Bool
  timeAsRey : ℤ
  jumping : Bool
  vx : ℚ
  vz : ℚ
  deriving Repr, DecidableEq

/-- `BallState` from `GameState.ts`. -/
structure BallState where
  x : ℚ
  y : ℚ
  z : ℚ
  vx : ℚ
  vy : ℚ
  vz : ℚ
  lastTouchedBy : String
  lastBounceOnRole : String
  lastBounceTime : ℤ
  bounceCount : ℕ
  deriving Repr, DecidableEq

/-- `GameState` from `GameState.ts`.  `players` is kept in Colyseus map
insertion order. -/
structure GameState where
  players : List PlayerState
  ball : BallState
  currentServer : String
  queue : List String
  elapsed : ℤ
  matchDuration : ℤ
  matchStarted : Bool
  matchEnded : Bool
  waitingForServe : Bool
  deriving Repr, DecidableEq

/-- Broadcast events (`this.broadcast` payloads in `ReyMatoRoom.ts`). -/
inductive Event where
  | playerAnimation (playerId action : String)
  | serve (server serverRole targetRole : String)
  | serveReady (server : String)
  | quadrantHighlight (role color : String)
  | rolesRotated (changes : List (String × String × String))
  | elimination (playerId playerName : String)
  | demotion (playerId playerName oldRole : String)
  | matchStart
  | matchEnd (leaderboard : List (String × ℤ))
  deriving Repr, DecidableEq

/-- The whole room: the replicated `GameState` plus the room's private
fields (`playerBodies`, `ballBody`, `playerJumpExtraG`,
`nextServeTargetIndex`, `reyStartTime`), plus ghost instrumentation. -/
structure RoomState where
  state : GameState
  playerBodies : List (String × BodyState)
  ballBody : BodyState
  playerJumpExtraG : List (String × ℚ)
  nextServeTargetIndex : ℕ
  reyStartTime : ℤ
  penaltyDispatches : ℕ
  enqueueLog : List String
  lastServeDistSq : Option ℚ
  deriving Repr, DecidableEq

/-- Default `PlayerState` field values (`GameState.ts` initialisers) with the
id and nickname assigned in `onJoin`. -/
def initPlayer (id nickname : String) : PlayerState :=
  { id := id, nickname := nickname, role := "queue", x := 0, y := 0, z := 0,
    rotY := 0, active := false, timeAsRey := 0, jumping := false, vx := 0, vz := 0 }

/-- Default `BallState` (`GameState.ts` initialisers). -/
def initBall : BallState :=
  { x := 0, y := 1, z := 0, vx := 0, vy := 0, vz := 0, lastTouchedBy := "",
    lastBounceOnRole := "", lastBounceTime := 0, bounceCount := 0 }

/-- Default `GameState` (`GameState.ts` initialisers; `matchDuration = 300`). -/
def initGameState : GameState :=
  { players := [], ball := initBall, currentServer := "", queue := [],
    elapsed := 0, matchDuration := 300, matchStarted := false,
    matchEnded := false, waitingForServe := false }

/-- Room state right after `onCreate`/`setupPhysics` (the ball body is placed
at `(0, 2, 0)`). -/
def initialRoomState : RoomState :=
  { state := initGameState, playerBodies := [],
    ballBody := { x := 0, y := 2, z := 0, vx := 0, vy := 0, vz := 0 },
    playerJumpExtraG := [], nextServeTargetIndex := 0, reyStartTime := 0,
    penaltyDispatches := 0, enqueueLog := [], lastServeDistSq := none }

/-! ### Map-like helpers over the insertion-ordered lists -/

/-- `this.state.players.get(id)` — first (and, with unique session ids, only)
record with the given id. -/
def findPlayer (s : GameState) (id : String) : Option PlayerState :=
  s.players.find? (fun p => p.id == id)

/-- In-place mutation of the player object with the given id
(JavaScript mutates the single shared record; ids are unique). -/
def updatePlayer (ps : List PlayerState) (id : String) (f : PlayerState → PlayerState) :
    List PlayerState :=
  ps.map (fun p => if p.id == id then f p else p)

/-- `this.playerBodies.get(id)`. -/
def lookupBody (rs : RoomState) (id : String) : Option BodyState :=
  (rs.playerBodies.find? (fun e => e.1 == id)).map (fun e => e.2)

/-- In-place mutation of a stored body. -/
def updateBody (bodies : List (String × BodyState)) (id : String)
    (f : BodyState → BodyState) : List (String × BodyState) :=
  bodies.map (fun e => if e.1 == id then (e.1, f e.2) else e)

/-- `Map.set`: overwrite if the key exists, otherwise append. -/
def mapSet (bodies : List (String × BodyState)) (id : String) (b : BodyState) :
    List (String × BodyState) :=
  if bodies.any (fun e => e.1 == id) then
    bodies.map (fun e => if e.1 == id then (id, b) else e)
  else bodies ++ [(id, b)]

/-- `this.world.removeBody(body); this.playerBodies.delete(id)`. -/
def removeBody (rs : RoomState) (id : String) : RoomState :=
  { rs with playerBodies := rs.playerBodies.filter (fun e => ¬(e.1 == id)) }

/-- Push an id onto the waiting queue (also recorded in the ghost log). -/
def pushQueue (rs : RoomState) (id : String) : RoomState :=
  { rs with state.queue := rs.state.queue ++ [id],
            enqueueLog := rs.enqueueLog ++ [id] }

/-! ### Core rule functions, translated method by method -/

/-- `getQuadrantRole` (lines 378–383). -/
def getQuadrantRole (x z : ℚ) : String :=
  if 0 ≤ x ∧ 0 ≤ z then "rey"
  else if x < 0 ∧ 0 ≤ z then "rey1"
  else if x < 0 ∧ z < 0 then "rey2"
  else "mato"

/-- `getPlayerByRole` (lines 442–447): first player in map order with the
role. -/
def getPlayerByRole (s : GameState) (role : String) : Option PlayerState :=
  s.players.find? (fun p => p.role == role)

/-- `isRoleVacant` (lines 522–527). -/
def isRoleVacant (s : GameState) (role : String) : Bool :=
  ¬ s.players.any (fun p => p.active && p.role == role)

/-- The spawn coordinates used by `setPlayerPosition` (lines 549–558);
`backLineOffset = 6`, queue spot `(0, -10)`. -/
def rolePosition (role : String) : ℚ × ℚ :=
  if role = "rey" then (3, 6)
  else if role = "rey1" then (-3, 6)
  else if role = "rey2" then (-3, -6)
  else if role = "mato" then (3, -6)
  else (0, -10)

/-- `setPlayerPosition` (lines 543–567): teleports the replicated player to
the role spawn point (y = 0) and, when a body exists, the body to
`(x, PLAYER_HEIGHT/2, z)` with `PLAYER_HEIGHT/2 = 9/10`. -/
def setPlayerPosition (rs : RoomState) (playerId role : String) : RoomState :=
  match findPlayer rs.state playerId with
  | none => rs
  | some _ =>
    let xz := rolePosition role
    let ps := updatePlayer rs.state.players playerId
      (fun p => { p with x := xz.1, z := xz.2, y := 0 })
    let rs1 := { rs with state.players := ps }
    let bodies := updateBody rs1.playerBodies playerId
      (fun b => { b with x := xz.1, y := 9/10, z := xz.2 })
    { rs1 with playerBodies := bodies }

/-- `createPlayerBody` (lines 644–664): a fresh dynamic body at
`(player.x, PLAYER_HEIGHT/2, player.z)` (mass, damping and materials are
engine-side and not part of the rules state). -/
def createPlayerBody (rs : RoomState) (playerId : String) : RoomState :=
  match findPlayer rs.state playerId with
  | none => rs
  | some p =>
    let bodies := mapSet rs.playerBodies playerId
      { x := p.x, y := 9/10, z := p.z, vx := 0, vy := 0, vz := 0 }
    { rs with playerBodies := bodies }

/-- `promoteFromQueue` (lines 529–541): pop the queue head (no-op when
empty), activate it into the `mato` slot, create its body. -/
def promoteFromQueue (rs : RoomState) : RoomState :=
  match rs.state.queue with
  | [] => rs
  | nextPlayerId :: rest =>
    let rs1 := { rs with state.queue := rest }
    match findPlayer rs1.state nextPlayerId with
    | none => rs1
    | some _ =>
      let ps := updatePlayer rs1.state.players nextPlayerId
        (fun p => { p with active := true, role := "mato" })
      let rs2 := { rs1 with state.players := ps }
      let rs3 := setPlayerPosition rs2 nextPlayerId "mato"
      createPlayerBody rs3 nextPlayerId

/-- `eliminatePlayer` (lines 449–468): deactivate, send to role `"queue"`,
append to the queue tail, promote the queue head, broadcast the elimination.
Note: the source never destroys the eliminated player's physics body. -/
def eliminatePlayer (playerId : String) (rs : RoomState) : RoomState × List Event :=
  match findPlayer rs.state playerId with
  | none => (rs, [])
  | some player =>
    let ps := updatePlayer rs.state.players playerId
      (fun p => { p with active := false, role := "queue" })
    let rs1 := { rs with state.players := ps }
    let rs2 := pushQueue rs1 playerId
    let rs3 := promoteFromQueue rs2
    (rs3, [Event.elimination playerId player.nickname])

/-- `startNewServe` (lines 569–599): `currentServer := "rey"`, ball placed at
the server (height 1.5) with zero velocity, bounce bookkeeping cleared,
`waitingForServe := true`, `serveReady` broadcast. -/
def startNewServe (rs : RoomState) : RoomState × List Event :=
  let rs1 := { rs with state.currentServer := "rey" }
  let rs2 :=
    match getPlayerByRole rs1.state "rey" with
    | some serverPlayer =>
      { rs1 with ballBody := { rs1.ballBody with x := serverPlayer.x, y := 3/2, z := serverPlayer.z } }
    | none =>
      { rs1 with ballBody := { rs1.ballBody with x := 0, y := 3/2, z := 0 } }
  let rs3 := { rs2 with ballBody := { rs2.ballBody with vx := 0, vy := 0, vz := 0 } }
  let rs4 := { rs3 with state.ball :=
    { rs3.state.ball with
      x := rs3.ballBody.x, y := rs3.ballBody.y, z := rs3.ballBody.z,
      vx := 0, vy := 0, vz := 0,
      bounceCount := 0, lastBounceOnRole := "" } }
  let rs5 := { rs4 with state.waitingForServe := true }
  (rs5, [Event.serveReady rs5.state.currentServer])

/-- One step of the rotation in `handleDoubleBouncePenalty` (lines 409–426):
move the first player currently holding `fromRole` (unless it is the
penalized player) to `toRole`, recording the change. -/
def rotateOne (rs : RoomState) (penalizedId fromRole toRole : String) :
    RoomState × List (String × String × String) :=
  match getPlayerByRole rs.state fromRole with
  | none => (rs, [])
  | some p =>
    if ¬(p.id == penalizedId) then
      let ps := updatePlayer rs.state.players p.id (fun q => { q with role := toRole })
      let rs1 := { rs with state.players := ps }
      (setPlayerPosition rs1 p.id toRole, [(p.id, fromRole, toRole)])
    else (rs, [])

/-- `handleDoubleBouncePenalty` (lines 385–440).  `mato` branch: eliminate
when the queue is non-empty, otherwise vacate the slot (deactivate, destroy
body, queue untouched).  Other roles: the source performs, in order,
`mato → rey2`, `rey2 → rey1`, `rey1 → rey` (each lookup running on the
already-mutated map and skipping only the penalized id), then sends the
penalized player to `mato`.  Always ends with `startNewServe`.  The ghost
counter `penaltyDispatches` counts entries into this function. -/
def handleDoubleBouncePenalty (role : String) (rs0 : RoomState) :
    RoomState × List Event :=
  let rs := { rs0 with penaltyDispatches := rs0.penaltyDispatches + 1 }
  if role = "mato" then
    match getPlayerByRole rs.state "mato" with
    | some matoPlayer =>
      if rs.state.queue.length > 0 then
        let r1 := eliminatePlayer matoPlayer.id rs
        let r2 := startNewServe r1.1
        (r2.1, r1.2 ++ r2.2)
      else
        let ps := updatePlayer rs.state.players matoPlayer.id
          (fun p => { p with active := false, role := "queue" })
        let rs1 := { rs with state.players := ps }
        let rs2 := removeBody rs1 matoPlayer.id
        startNewServe rs2
    | none => startNewServe rs
  else
    match getPlayerByRole rs.state role with
    | none => startNewServe rs
    | some penalized =>
      let r1 := rotateOne rs penalized.id "mato" "rey2"
      let r2 := rotateOne r1.1 penalized.id "rey2" "rey1"
      let r3 := rotateOne r2.1 penalized.id "rey1" "rey"
      let changes := r1.2 ++ r2.2 ++ r3.2 ++ [(penalized.id, penalized.role, "mato")]
      let ps4 := updatePlayer r3.1.state.players penalized.id
        (fun p => { p with role := "mato" })
      let rs4 := { r3.1 with state.players := ps4 }
      let rs5 := setPlayerPosition rs4 penalized.id "mato"
      let r6 := startNewServe rs5
      (r6.1, Event.rolesRotated changes :: r6.2)

/-- `handleBallBounce` (lines 352–376): quadrant bookkeeping on the ball
body's position, highlight broadcasts, penalty adjudication at two bounces. -/
def handleBallBounce (rs : RoomState) : RoomState × List Event :=
  let role := getQuadrantRole rs.ballBody.x rs.ballBody.z
  let b := rs.state.ball
  let b1 :=
    if role = b.lastBounceOnRole then { b with bounceCount := b.bounceCount + 1 }
    else { b with lastBounceOnRole := role, bounceCount := 1 }
  let b2 := { b1 with lastBounceTime := rs.state.elapsed }
  let rs1 := { rs with state.ball := b2 }
  let evs1 :=
    if b2.bounceCount = 1 then [Event.quadrantHighlight role "blue"]
    else if b2.bounceCount = 2 then [Event.quadrantHighlight role "red"]
    else []
  if b2.bounceCount ≥ 2 then
    let r := handleDoubleBouncePenalty role rs1
    (r.1, evs1 ++ r.2)
  else (rs1, evs1)

/-- The ball-ground collision listener (lines 107–118): doubles an incoming
downward vertical speed into an upward one, then runs `handleBallBounce`. -/
def onBallGroundCollision (rs : RoomState) : RoomState × List Event :=
  let rs1 :=
    if rs.ballBody.vy < 0 then
      { rs with ballBody := { rs.ballBody with vy := |rs.ballBody.vy| * 2 } }
    else rs
  handleBallBounce rs1

/-! ### Serve protocol -/

/-- `servingTargets` (line 29): the fixed serve-target cycle
Mato → Rey2 → Rey1. -/
def servingTargets : List String := ["mato", "rey2", "rey1"]

/-- The target quadrant centres in `performServe` (lines 315–323). -/
def serveTargetCoords (targetRole : String) : ℚ × ℚ :=
  if targetRole = "mato" then (5/2, -5/2)
  else if targetRole = "rey2" then (-5/2, -5/2)
  else if targetRole = "rey1" then (-5/2, 5/2)
  else (0, 0)

/-- The square of the planar distance `Math.hypot(dirX, dirZ)` computed in
`performServe` (lines 325–327); the horizontal impulse components are
`dirX/distance * 7` and `dirZ/distance * 7`, so they are finite exactly when
this quantity is nonzero. -/
def serveDistSq (serverX serverZ : ℚ) (targetRole : String) : ℚ :=
  ((serveTargetCoords targetRole).1 - serverX) ^ 2
    + ((serveTargetCoords targetRole).2 - serverZ) ^ 2

/-- `performServe` (lines 299–350): reposition the ball at the server
(height 2) with zero velocity, pick the target from the cycle and advance
the cursor, apply the serve impulse, mark the ball touched and in play,
broadcast the serve.  The impulse is
`((dirX/d)·7, 3.5, (dirZ/d)·7)` with `d = Math.hypot(dirX, dirZ)`; `d` is
irrational in general, so the model records `d²` (`serveDistSq`) in the
ghost field `lastServeDistSq` instead of a numeric velocity — no rule ever
reads the ball velocity produced by an impulse. -/
def performServe (playerId : String) (rs : RoomState) : RoomState × List Event :=
  match findPlayer rs.state playerId with
  | none => (rs, [])
  | some player =>
    let serverX := player.x
    let serverZ := player.z
    let rs1 := { rs with ballBody :=
      { rs.ballBody with x := serverX, y := 2, z := serverZ, vx := 0, vy := 0, vz := 0 } }
    let targetRole := servingTargets.getD rs1.nextServeTargetIndex ""
    let rs2 := { rs1 with
      nextServeTargetIndex := (rs1.nextServeTargetIndex + 1) % servingTargets.length }
    let rs3 := { rs2 with lastServeDistSq := some (serveDistSq serverX serverZ targetRole) }
    let rs4 := { rs3 with state.ball := { rs3.state.ball with lastTouchedBy := playerId } }
    let rs5 := { rs4 with state.waitingForServe := false }
    (rs5, [Event.serve player.nickname player.role targetRole])

/-! ### Input processing -/

/-- The `input` message payload (`InputMessage`, lines 5–10); `action = none`
models `null`. -/
structure InputMessage where
  move : ℚ × ℚ
  jump : Bool
  action : Option String
  deriving Repr, DecidableEq

/-- `handlePlayerAction` (lines 226–297).  Serve: gated on
`player.role == currentServer && waitingForServe`.  Kick/head: gated on the
3-D ball–body distance being at most 1.5 (compared via squares), with an
additional head hitbox test (`hypot(dx,dz) ≤ 1` and `|dy| ≤ 0.6`).  On a hit
the source normalises a direction vector and applies a fixed-magnitude
impulse to the ball; the normalisation divides by an (irrational) length, so
the model keeps the ball velocity unchanged and performs only the rule-level
effects (`lastTouchedBy`, `waitingForServe := false`, animation broadcast),
which are the only ones any rule reads. -/
def handlePlayerAction (playerId action : String) (rs : RoomState) :
    RoomState × List Event :=
  match findPlayer rs.state playerId, lookupBody rs playerId with
  | some player, some playerBody =>
    if action = "serve" then
      if player.role = rs.state.currentServer ∧ rs.state.waitingForServe then
        performServe playerId rs
      else (rs, [])
    else
      let distSq := (rs.ballBody.x - playerBody.x) ^ 2 + (rs.ballBody.y - playerBody.y) ^ 2
        + (rs.ballBody.z - playerBody.z) ^ 2
      if distSq > 9/4 then (rs, [])
      else
        let headOk : Bool :=
          if action = "head" then
            let headY := playerBody.y + (9/10 - 1/5)
            let dx := rs.ballBody.x - playerBody.x
            let dy := rs.ballBody.y - headY
            let dz := rs.ballBody.z - playerBody.z
            ¬(dx ^ 2 + dz ^ 2 > 1 ∨ |dy| > 3/5)
          else true
        if headOk then
          let rs1 := { rs with state.ball := { rs.state.ball with lastTouchedBy := playerId } }
          let rs2 := { rs1 with state.waitingForServe := false }
          (rs2, [Event.playerAnimation playerId action])
        else (rs, [])
  | _, _ => (rs, [])

/-- `handlePlayerInput` (lines 174–224): planar velocity from the move
vector (`speed = 7`), ground snap when not jumping and within 0.05 of ground
height, jump arming (initial upward velocity 6 and extra downward
acceleration `max 0 (2·6/1.5 − 2) = 6`), then the optional action.  The
1.5-second `setTimeout` that later clears `jumping` is a real-time deferred
callback outside the discrete rules model; its scheduling is the only part
not modelled. -/
def handlePlayerInput (playerId : String) (input : InputMessage) (rs : RoomState) :
    RoomState × List Event :=
  match findPlayer rs.state playerId, lookupBody rs playerId with
  | some player, some _ =>
    let speed : ℚ := 7
    let bodies1 := updateBody rs.playerBodies playerId
      (fun b => { b with vx := input.move.1 * speed, vz := input.move.2 * speed })
    let rs1 := { rs with playerBodies := bodies1 }
    let groundY : ℚ := 9/10
    let rs2 :=
      match lookupBody rs1 playerId with
      | some b =>
        if ¬player.jumping ∧ b.y ≤ groundY + 1/20 then
          let b1 := { b with y := groundY }
          let b2 := if b1.vy < 0 then { b1 with vy := 0 } else b1
          { rs1 with playerBodies := updateBody rs1.playerBodies playerId (fun _ => b2) }
        else rs1
      | none => rs1
    let rs3 :=
      match lookupBody rs2 playerId with
      | some b =>
        let ps := updatePlayer rs2.state.players playerId
          (fun p => { p with vx := b.vx, vz := b.vz })
        { rs2 with state.players := ps }
      | none => rs2
    let rs4 :=
      match lookupBody rs3 playerId with
      | some b =>
        if input.jump ∧ |b.vy| < 1/10 then
          let extraG : ℚ := 6
          let bodies4 := updateBody rs3.playerBodies playerId (fun bb => { bb with vy := 6 })
          let rs4a := { rs3 with playerBodies := bodies4 }
          let extras := rs4a.playerJumpExtraG.filter (fun e => ¬(e.1 == playerId)) ++ [(playerId, extraG)]
          let rs4b := { rs4a with playerJumpExtraG := extras }
          let ps := updatePlayer rs4b.state.players playerId (fun p => { p with jumping := true })
          { rs4b with state.players := ps }
        else rs3
      | none => rs3
    match input.action with
    | some a => handlePlayerAction playerId a rs4
    | none => (rs4, [])
  | _, _ => (rs, [])

/-- The `onMessage("input", ...)` handler (lines 163–172): drops the message
when the sender is unknown or inactive. -/
def onInputMessage (sessionId : String) (input : InputMessage) (rs : RoomState) :
    RoomState × List Event :=
  match findPlayer rs.state sessionId with
  | none => (rs, [])
  | some player =>
    if player.active then handlePlayerInput sessionId input rs else (rs, [])

/-! ### Join, match start, leave -/

/-- `startMatch` (lines 666–674). -/
def startMatch (rs : RoomState) : RoomState × List Event :=
  let rs1 := { rs with state.matchStarted := true }
  let rs2 := { rs1 with state.elapsed := 0 }
  let rs3 := { rs2 with reyStartTime := 0 }
  let r := startNewServe rs3
  (r.1, r.2 ++ [Event.matchStart])

/-- `checkAndStartGame` (lines 617–642).  Note that `activePlayers` is
computed once at entry, so the final match-start test sees the count from
before any promotion performed by this very call. -/
def checkAndStartGame (rs : RoomState) : RoomState × List Event :=
  let activePlayers := rs.state.players.filter (fun p => p.active)
  let rs1 :=
    if activePlayers.length < 4 ∧ rs.state.queue.length > 0 then
      let roles := ["rey", "rey1", "rey2", "mato"]
      let usedRoles := activePlayers.map (fun p => p.role)
      let availableRoles := roles.filter (fun role => ¬ usedRoles.contains role)
      match availableRoles with
      | [] => rs
      | firstRole :: _ =>
        match rs.state.queue with
        | [] => rs
        | playerId :: rest =>
          let rsA := { rs with state.queue := rest }
          match findPlayer rsA.state playerId with
          | none => rsA
          | some _ =>
            let ps := updatePlayer rsA.state.players playerId
              (fun p => { p with active := true, role := firstRole })
            let rsB := { rsA with state.players := ps }
            let rsC := setPlayerPosition rsB playerId firstRole
            createPlayerBody rsC playerId
    else rs
  if activePlayers.length = 4 ∧ ¬rs.state.matchStarted then startMatch rs1
  else (rs1, [])

/-- `onJoin` (lines 601–615).  `options.nickname || default`: the empty
string is falsy in JavaScript, hence the emptiness test.  Session ids are
unique, so the `MapSchema.set` of a fresh key is an append. -/
def onJoin (sessionId nickname : String) (rs : RoomState) : RoomState × List Event :=
  let nick := if nickname = "" then "Player" ++ sessionId.take 4 else nickname
  let rs1 := { rs with state.players := rs.state.players ++ [initPlayer sessionId nick] }
  let rs2 := pushQueue rs1 sessionId
  checkAndStartGame rs2

/-- `onLeave` (lines 801–824): an active leaver goes through the elimination
path, then the id is spliced out of the queue, the body removed and the
record deleted. -/
def onLeave (sessionId : String) (rs : RoomState) : RoomState × List Event :=
  let r1 :=
    match findPlayer rs.state sessionId with
    | some player => if player.active then eliminatePlayer sessionId rs else (rs, [])
    | none => (rs, [])
  let rs2 := { r1.1 with state.queue := r1.1.state.queue.erase sessionId }
  let rs3 := removeBody rs2 sessionId
  let rs4 := { rs3 with state.players := rs3.state.players.filter (fun p => ¬(p.id == sessionId)) }
  (rs4, r1.2)

/-! ### Match clock -/

/-- Stable insertion into a descending-by-`timeAsRey` list (the comparator
`(a, b) => b.timeAsRey - a.timeAsRey` under JavaScript's stable sort). -/
def insertByTimeDesc (x : PlayerState) : List PlayerState → List PlayerState
  | [] => [x]
  | y :: ys => if x.timeAsRey ≤ y.timeAsRey then y :: insertByTimeDesc x ys
    else x :: y :: ys

/-- The leaderboard sort in `endMatch` (line 790). -/
def sortByTimeDesc : List PlayerState → List PlayerState
  | [] => []
  | x :: xs => insertByTimeDesc x (sortByTimeDesc xs)

/-- `endMatch` (lines 784–799): mark the match ended and broadcast the
leaderboard of players with positive `timeAsRey`, sorted descending. -/
def endMatch (rs : RoomState) : RoomState × List Event :=
  let rs1 := { rs with state.matchEnded := true }
  let leaderboard := sortByTimeDesc (rs1.state.players.filter (fun p => p.timeAsRey > 0))
  (rs1, [Event.matchEnd (leaderboard.map (fun p => (p.nickname, p.timeAsRey)))])

/-- The 1 Hz clock body in `startGameLoop` (lines 683–701): while the match
is started and not ended, advance `elapsed`, set `reyStartTime` on the first
tick that sees a king (and only then — it is never re-recorded), recompute
the king's `timeAsRey` as a delta, and end the match once
`elapsed ≥ matchDuration`. -/
def matchClockTick (rs : RoomState) : RoomState × List Event :=
  if rs.state.matchStarted ∧ ¬rs.state.matchEnded then
    let rs1 := { rs with state.elapsed := rs.state.elapsed + 1 }
    let rs2 : RoomState :=
      match getPlayerByRole rs1.state "rey" with
      | some reyPlayer =>
        let rsA :=
          if rs1.reyStartTime = 0 then { rs1 with reyStartTime := rs1.state.elapsed }
          else rs1
        let ps := updatePlayer rsA.state.players reyPlayer.id
          (fun p => { p with timeAsRey := rsA.state.elapsed - rsA.reyStartTime })
        { rsA with state.players := ps }
      | none => rs1
    if rs2.state.elapsed ≥ rs2.state.matchDuration then endMatch rs2
    else (rs2, [])
  else (rs, [])

/-! ### Physics tick (rule-relevant part) -/

/-- The state-copy loop of `updatePhysics` (lines 704–732): copy each active
player's body position into the replicated record (the world step itself and
the jump-shaping force only move bodies, which the embedding treats as
environment-chosen motion). -/
def updatePhysicsCopy (rs : RoomState) : RoomState :=
  let rsBall := { rs with state.ball :=
    { rs.state.ball with
      x := rs.ballBody.x, y := rs.ballBody.y, z := rs.ballBody.z,
      vx := rs.ballBody.vx, vy := rs.ballBody.vy, vz := rs.ballBody.vz } }
  rsBall.playerBodies.foldl
    (fun acc e =>
      match findPlayer acc.state e.1 with
      | some p =>
        if p.active then
          match lookupBody acc e.1 with
          | some b =>
            let ps := updatePlayer acc.state.players e.1
              (fun q => { q with x := b.x, y := b.y - 9/10, z := b.z })
            { acc with state.players := ps }
          | none => acc
        else acc
      | none => acc)
    rsBall

/-- Clamp one player body in `updateGameState` (lines 736–768): court bounds
(±7.5 with the offending velocity zeroed) and the ground clamp that also
clears `jumping` and the jump-shaping entry. -/
def clampPlayerBody (rs : RoomState) (playerId : String) : RoomState :=
  match lookupBody rs playerId with
  | none => rs
  | some b =>
    let boundary : ℚ := 15/2
    let b1 :=
      if b.x > boundary then { b with x := boundary, vx := 0 }
      else if b.x < -boundary then { b with x := -boundary, vx := 0 }
      else b
    let b2 :=
      if b1.z > boundary then { b1 with z := boundary, vz := 0 }
      else if b1.z < -boundary then { b1 with z := -boundary, vz := 0 }
      else b1
    let groundY : ℚ := 9/10
    let grounded := b2.y ≤ groundY + 1/100
    let b3 :=
      if grounded then
        let bg := { b2 with y := groundY }
        if bg.vy < 0 then { bg with vy := 0 } else bg
      else b2
    let rs1 := { rs with playerBodies := updateBody rs.playerBodies playerId (fun _ => b3) }
    if grounded then
      let ps := updatePlayer rs1.state.players playerId (fun p => { p with jumping := false })
      let rs2 := { rs1 with state.players := ps }
      { rs2 with playerJumpExtraG := rs2.playerJumpExtraG.filter (fun e => ¬(e.1 == playerId)) }
    else rs1

/-- `updateGameState` (lines 734–782): clamp every player body, then the
ball-fell-through-ground serve reset and the soft ceiling. -/
def updateGameState (rs : RoomState) : RoomState × List Event :=
  let rs1 := (rs.playerBodies.map (fun e => e.1)).foldl clampPlayerBody rs
  let r2 :=
    if rs1.ballBody.y < -2 then startNewServe rs1
    else (rs1, [])
  let rs3 :=
    if r2.1.ballBody.y > 10 then
      { r2.1 with ballBody := { r2.1.ballBody with vy := min r2.1.ballBody.vy 0 } }
    else r2.1
  (rs3, r2.2)

/-! ### Concrete executions

Join/physics traces used to evaluate the rules on reachable states.  The
physics engine moves the ball between collisions; `setBallBodyPos` stands
for that environment-driven motion, and `doubleBounceAt` delivers two
consecutive ground-collision notifications with the ball at the same spot. -/

/-- Process a sequence of joins (fresh session ids, no nickname option). -/
def joinAll (ids : List String) (rs : RoomState) : RoomState :=
  ids.foldl (fun acc id => (onJoin id "" acc).1) rs

/-- Environment action: the physics world has moved the ball body here. -/
def setBallBodyPos (x z : ℚ) (rs : RoomState) : RoomState :=
  { rs with ballBody := { rs.ballBody with x := x, z := z } }

/-- Two consecutive ball–ground collisions with the ball at `(x, z)`. -/
def doubleBounceAt (x z : ℚ) (rs : RoomState) : RoomState :=
  (handleBallBounce (handleBallBounce (setBallBodyPos x z rs)).1).1

/-- Four players join a fresh room: they fill rey, rey1, rey2, mato in that
order and the queue drains. -/
def roomAfterFourJoins : RoomState :=
  joinAll ["p1", "p2", "p3", "p4"] initialRoomState

/-- A fifth player joins and stays queued. -/
def roomAfterFiveJoins : RoomState :=
  joinAll ["p1", "p2", "p3", "p4", "p5"] initialRoomState

/-- Iterate the 1 Hz match clock. -/
def tickN (n : ℕ) (rs : RoomState) : RoomState :=
  (List.range n).foldl (fun acc _ => (matchClockTick acc).1) rs

/-! ### C1 — penalty rotation against a higher challenger -/

/-- A double bounce in the rey2 quadrant (ball at `(-1, -1)`) with all four
slots occupied. -/
def roomAfterRey2Penalty : RoomState := doubleBounceAt (-1) (-1) roomAfterFourJoins

/-- Claim C1 (code bug).  Penalizing the occupied higher challenger role
`rey2` is supposed to leave the king untouched, but
`handleDoubleBouncePenalty` executes `rey1 → rey` (lines 421–426) even
though the rey occupant is not the penalized player: starting from the
canonical four-player room (p1 = rey, p2 = rey1, p3 = rey2, p4 = mato), a
rey2-quadrant double bounce leaves BOTH p1 and p2 actively holding the king
role (and the rey1 slot vacant), so the rotation does change which players
hold the king role. -/
theorem C1_rey2_penalty_creates_second_king :
    ((roomAfterFourJoins.state.players.filter
        (fun p => p.active && p.role == "rey")).map (fun p => p.id) = ["p1"])
    ∧ ((roomAfterRey2Penalty.state.players.filter
        (fun p => p.active && p.role == "rey")).map (fun p => p.id) = ["p1", "p2"])
    ∧ ((roomAfterRey2Penalty.state.players.filter
        (fun p => p.active && p.role == "rey1")).map (fun p => p.id) = []) := by
  refine ⟨?_, ?_, ?_⟩ <;> rfl

/-! ### C2 — the role-slot partition invariant -/

/-- The active `rey1` occupant p2 leaves the five-player room. -/
def roomAfterRey1Leaves : RoomState := (onLeave "p2" roomAfterFiveJoins).1

/-- Claim C2 (code bug).  `onLeave` routes every active leaver through
`eliminatePlayer`, which always promotes the queue head into `mato`
(line 461 / lines 529–541) even when the vacated slot was not `mato`: after
p2 (rey1) leaves the five-player room, p4 and p5 are both active with role
`mato`, so an operation assigned two active players the same role slot. -/
theorem C2_leave_of_rey1_yields_two_matos :
    (roomAfterRey1Leaves.state.players.filter
        (fun p => p.active && p.role == "mato")).map (fun p => p.id) = ["p4", "p5"] := by
  rfl

/-! ### C4 — body-iff-active and the elimination path -/

/-- A double bounce in the mato quadrant (ball at `(1, -1)`) with p5 queued:
the mato occupant p4 is eliminated and p5 promoted. -/
def roomAfterMatoElimination : RoomState := doubleBounceAt 1 (-1) roomAfterFiveJoins

/-- Claim C4 (code bug).  `eliminatePlayer` (lines 449–468) deactivates the
bottom-slot occupant and requeues them but never destroys their physics
body (contrast the vacancy branch, lines 394–402, which does): after the
elimination p4 is inactive yet still has a body, violating body-iff-active;
the rest of the claimed elimination effects (requeue at tail, promotion of
the queue head with a fresh body) do occur. -/
theorem C4_eliminated_player_keeps_body :
    ((findPlayer roomAfterMatoElimination.state "p4").map (fun p => p.active) = some false)
    ∧ ((lookupBody roomAfterMatoElimination "p4").isSome = true)
    ∧ (roomAfterMatoElimination.state.queue = ["p4"])
    ∧ ((findPlayer roomAfterMatoElimination.state "p5").map
        (fun p => (p.role, p.active)) = some ("mato", true))
    ∧ ((lookupBody roomAfterMatoElimination "p5").isSome = true) := by
  refine ⟨?_, ?_, ?_, ?_, ?_⟩ <;> rfl

/-! ### C3 — match start timing -/

/-- Claim C3 (code bug).  `checkAndStartGame` filters `activePlayers` before
promoting the joining player and re-tests that stale snapshot at line 639,
so the join that fills the fourth slot sees a count of 3 and does not start
the match; the match only starts on the next join.  With exactly four
players in the room, all four slots are filled yet `matchStarted` is false. -/
theorem C3_match_does_not_start_on_fourth_join :
    ((roomAfterFourJoins.state.players.filter (fun p => p.active)).length = 4)
    ∧ (roomAfterFourJoins.state.matchStarted = false)
    ∧ (roomAfterFiveJoins.state.matchStarted = true) := by
  refine ⟨?_, ?_, ?_⟩ <;> rfl

/-! ### C8 — the match clock and `timeAsRey` -/

/-- Ten clock ticks into the started five-player match. -/
def roomBeforeKingChange : RoomState := tickN 10 roomAfterFiveJoins

/-- A double bounce in the rey quadrant (ball at `(1, 1)`) then penalizes the
king p1: the rotation hands the king role to p2 at elapsed time 10. -/
def roomAfterKingChange : RoomState := doubleBounceAt 1 1 roomBeforeKingChange

/-- Ten further clock ticks. -/
def roomAfterTwentyTicks : RoomState := tickN 10 roomAfterKingChange

/-- Counterexample to claim C8 as stated.  `reyStartTime` is recorded only
once per match (the `=== 0` test at line 690 can never fire again after the
first tick that saw a king), so when the king changes the new occupant's
`timeAsRey` is measured from the start of the match, not from when they took
the role: p2 first holds the king role at elapsed time 10, yet at elapsed
time 20 the clock reports `timeAsRey = 19`, not `20 - 10 = 10`. -/
theorem C8_counterexample_timeAsRey_after_king_change :
    (roomBeforeKingChange.state.elapsed = 10)
    ∧ ((findPlayer roomBeforeKingChange.state "p2").map (fun p => p.role) = some "rey1")
    ∧ (roomAfterKingChange.state.elapsed = 10)
    ∧ ((findPlayer roomAfterKingChange.state "p2").map (fun p => p.role) = some "rey")
    ∧ (roomAfterTwentyTicks.state.elapsed = 20)
    ∧ ((findPlayer roomAfterTwentyTicks.state "p2").map (fun p => p.timeAsRey) = some 19)
    ∧ ((19 : ℤ) ≠ 20 - 10) := by
  refine ⟨?_, ?_, ?_, ?_, ?_, ?_, ?_⟩ <;> first | rfl | decide

/-! ### C7 — the queue and the vacancy branch -/

/-- A double bounce in the mato quadrant with an EMPTY queue: the vacancy
branch (lines 393–402) deactivates p4 without requeueing. -/
def roomAfterMatoVacate : RoomState := doubleBounceAt 1 (-1) roomAfterFourJoins

/-- Counterexample to claim C7 as stated.  After a bottom-slot double bounce
with an empty queue the vacated occupant p4 is a non-active player that is
NOT in the queue (the vacancy branch never pushes it), so the queue does not
contain exactly the ids of non-active players. -/
theorem C7_counterexample_vacated_player_not_queued :
    ((findPlayer roomAfterMatoVacate.state "p4").map (fun p => p.active) = some false)
    ∧ (roomAfterMatoVacate.state.queue = []) := by
  exact ⟨rfl, rfl⟩

/-! ### C10 — the serve impulse divisor -/

/-- A reachable-shape room whose king stands exactly at the mato target
centre `(2.5, -2.5)` (players move continuously under input, so any court
position is a possible serve position). -/
def serverAtTargetCenter : RoomState :=
  { initialRoomState with state := { initGameState with
      players := [{ initPlayer "p1" "P1" with role := "rey", active := true, x := 5/2, z := -5/2 }],
      currentServer := "rey", waitingForServe := true } }

/-- Counterexample to claim C10 as stated.  With the serve cursor at 0 the
target is `mato` with centre `(2.5, -2.5)`; a server standing exactly there
makes `distance = Math.hypot(0, 0) = 0`, and `performServe` divides the
horizontal impulse components by it unguarded (lines 333–337), producing
`0/0 = NaN` — the impulse is not finite for every server position. -/
theorem C10_counterexample_distance_zero_at_center :
    ((performServe "p1" serverAtTargetCenter).1.lastServeDistSq = some 0)
    ∧ ((performServe "p1" serverAtTargetCenter).2 = [Event.serve "P1" "rey" "mato"])
    ∧ (serveDistSq (5/2) (-5/2) "mato" = 0) := by
  refine ⟨?_, ?_, ?_⟩ <;> with_unfolding_all rfl

/-- Claim C10 as amended: the squared planar distance recorded by
`performServe` is `serveDistSq` of the server position and the selected
target, and it vanishes exactly when the server stands at the selected
target quadrant's centre — for every other server position the divisor, and
hence the impulse, is a nonzero finite quantity. -/
theorem C10_serve_distance_zero_iff_at_center (rs : RoomState) (pid : String)
    (player : PlayerState) (h : findPlayer rs.state pid = some player) :
    ((performServe pid rs).1.lastServeDistSq =
      some (serveDistSq player.x player.z (servingTargets.getD rs.nextServeTargetIndex "")))
    ∧ ∀ targetRole : String, ∀ sx sz : ℚ,
        (serveDistSq sx sz targetRole = 0 ↔
          sx = (serveTargetCoords targetRole).1 ∧ sz = (serveTargetCoords targetRole).2) := by
  constructor
  · simp only [performServe, h]
  · intro targetRole sx sz
    unfold serveDistSq
    constructor
    · intro h0
      have ha := sq_nonneg ((serveTargetCoords targetRole).1 - sx)
      have hb := sq_nonneg ((serveTargetCoords targetRole).2 - sz)
      have h1 : ((serveTargetCoords targetRole).1 - sx) ^ 2 = 0 := by linarith
      have h2 : ((serveTargetCoords targetRole).2 - sz) ^ 2 = 0 := by linarith
      have h1x : (serveTargetCoords targetRole).1 - sx = 0 :=
        (pow_eq_zero_iff (by norm_num)).mp h1
      have h2x : (serveTargetCoords targetRole).2 - sz = 0 :=
        (pow_eq_zero_iff (by norm_num)).mp h2
      constructor <;> linarith
    · rintro ⟨hx, hz⟩
      subst hx; subst hz
      ring

/-- The record the four-join room holds for p1 (king at the rey spawn). -/
def p1AfterFourJoins : PlayerState :=
  { id := "p1", nickname := "Playerp1", role := "rey", x := 3, y := 0, z := 6,
    rotY := 0, active := true, timeAsRey := 0, jumping := false, vx := 0, vz := 0 }

/-- Witness for `C10_serve_distance_zero_iff_at_center` at a concrete room:
the king of the four-player room serves from the rey spawn `(3, 6)`; the
recorded squared distance is `(2.5-3)² + (-2.5-6)² = 145/2 ≠ 0`, matching a
server position away from the target centre. -/
theorem C10_serve_distance_witness :
    ((performServe "p1" roomAfterFourJoins).1.lastServeDistSq =
      some (serveDistSq p1AfterFourJoins.x p1AfterFourJoins.z
        (servingTargets.getD roomAfterFourJoins.nextServeTargetIndex "")))
    ∧ ¬(p1AfterFourJoins.x = (serveTargetCoords "mato").1
        ∧ p1AfterFourJoins.z = (serveTargetCoords "mato").2)
    ∧ serveDistSq p1AfterFourJoins.x p1AfterFourJoins.z "mato" ≠ 0 := by
  have h : findPlayer roomAfterFourJoins.state "p1" = some p1AfterFourJoins := by
    with_unfolding_all rfl
  have main := C10_serve_distance_zero_iff_at_center roomAfterFourJoins "p1" p1AfterFourJoins h
  refine ⟨main.1, ?_, ?_⟩
  · with_unfolding_all decide
  · intro h0
    have hc := (main.2 "mato" p1AfterFourJoins.x p1AfterFourJoins.z).mp h0
    revert hc
    with_unfolding_all decide

/-! ### C5 — bounce counting and penalty dispatch -/

/-- Number of `serveReady` broadcasts (serve re-arms) in an event list. -/
def serveReadyCount (evs : List Event) : ℕ :=
  (evs.filter (fun e => match e with | Event.serveReady _ => true | _ => false)).length

theorem serveReadyCount_nil : serveReadyCount [] = 0 := rfl

theorem serveReadyCount_append (a b : List Event) :
    serveReadyCount (a ++ b) = serveReadyCount a + serveReadyCount b := by
  simp [serveReadyCount]

theorem serveReadyCount_highlights (c1 c2 : Prop) [Decidable c1] [Decidable c2]
    (r1 col1 r2 col2 : String) :
    serveReadyCount
      (if c1 then [Event.quadrantHighlight r1 col1]
       else if c2 then [Event.quadrantHighlight r2 col2] else []) = 0 := by
  split
  · rfl
  · split <;> rfl

theorem startNewServe_events (rs : RoomState) :
    (startNewServe rs).2 = [Event.serveReady "rey"] := by
  simp only [startNewServe]
  split <;> rfl

theorem startNewServe_waitingForServe (rs : RoomState) :
    (startNewServe rs).1.state.waitingForServe = true := by
  simp only [startNewServe]

theorem startNewServe_bounceCount (rs : RoomState) :
    (startNewServe rs).1.state.ball.bounceCount = 0 := by
  simp only [startNewServe]

theorem startNewServe_lastBounceOnRole (rs : RoomState) :
    (startNewServe rs).1.state.ball.lastBounceOnRole = "" := by
  simp only [startNewServe]

theorem startNewServe_penaltyDispatches (rs : RoomState) :
    (startNewServe rs).1.penaltyDispatches = rs.penaltyDispatches := by
  simp only [startNewServe]
  split <;> rfl

theorem setPlayerPosition_penaltyDispatches (rs : RoomState) (pid role : String) :
    (setPlayerPosition rs pid role).penaltyDispatches = rs.penaltyDispatches := by
  simp only [setPlayerPosition]
  split <;> rfl

theorem createPlayerBody_penaltyDispatches (rs : RoomState) (pid : String) :
    (createPlayerBody rs pid).penaltyDispatches = rs.penaltyDispatches := by
  simp only [createPlayerBody]
  split <;> rfl

theorem promoteFromQueue_penaltyDispatches (rs : RoomState) :
    (promoteFromQueue rs).penaltyDispatches = rs.penaltyDispatches := by
  simp only [promoteFromQueue]
  split
  · rfl
  · split
    · rfl
    · rw [createPlayerBody_penaltyDispatches, setPlayerPosition_penaltyDispatches]

theorem eliminatePlayer_penaltyDispatches (pid : String) (rs : RoomState) :
    (eliminatePlayer pid rs).1.penaltyDispatches = rs.penaltyDispatches := by
  simp only [eliminatePlayer]
  split
  · rfl
  · rw [promoteFromQueue_penaltyDispatches]
    rfl

theorem eliminatePlayer_serveReadyCount (pid : String) (rs : RoomState) :
    serveReadyCount (eliminatePlayer pid rs).2 = 0 := by
  simp only [eliminatePlayer]
  split <;> rfl

theorem rotateOne_penaltyDispatches (rs : RoomState) (pid fromRole toRole : String) :
    (rotateOne rs pid fromRole toRole).1.penaltyDispatches = rs.penaltyDispatches := by
  simp only [rotateOne]
  split
  · rfl
  · split
    · rw [setPlayerPosition_penaltyDispatches]
    · rfl

/-- Resolving any double-bounce penalty performs exactly one serve re-arm
(one `serveReady` broadcast, `waitingForServe := true`, bounce bookkeeping
cleared) and counts as exactly one penalty dispatch, in every branch of
`handleDoubleBouncePenalty`. -/
theorem handleDoubleBouncePenalty_resolution (role : String) (rs : RoomState) :
    serveReadyCount (handleDoubleBouncePenalty role rs).2 = 1
    ∧ (handleDoubleBouncePenalty role rs).1.state.waitingForServe = true
    ∧ (handleDoubleBouncePenalty role rs).1.state.ball.bounceCount = 0
    ∧ (handleDoubleBouncePenalty role rs).1.state.ball.lastBounceOnRole = ""
    ∧ (handleDoubleBouncePenalty role rs).1.penaltyDispatches = rs.penaltyDispatches + 1 := by
  unfold handleDoubleBouncePenalty
  split
  · -- role = "mato"
    simp only []
    split
    · -- some matoPlayer
      split
      · -- queue non-empty: eliminate
        simp only []
        refine ⟨?_, ?_, ?_, ?_, ?_⟩
        · rw [serveReadyCount_append, eliminatePlayer_serveReadyCount, startNewServe_events]
          decide
        · rw [startNewServe_waitingForServe]
        · rw [startNewServe_bounceCount]
        · rw [startNewServe_lastBounceOnRole]
        · rw [startNewServe_penaltyDispatches, eliminatePlayer_penaltyDispatches]
      · -- queue empty: vacate
        refine ⟨?_, ?_, ?_, ?_, ?_⟩
        · rw [startNewServe_events]
          rfl
        · rw [startNewServe_waitingForServe]
        · rw [startNewServe_bounceCount]
        · rw [startNewServe_lastBounceOnRole]
        · rw [startNewServe_penaltyDispatches]
          rfl
    · -- no mato occupant
      refine ⟨?_, ?_, ?_, ?_, ?_⟩
      · rw [startNewServe_events]
        rfl
      · rw [startNewServe_waitingForServe]
      · rw [startNewServe_bounceCount]
      · rw [startNewServe_lastBounceOnRole]
      · rw [startNewServe_penaltyDispatches]
  · -- other roles
    simp only []
    split
    · -- the penalized role is unoccupied
      refine ⟨?_, ?_, ?_, ?_, ?_⟩
      · rw [startNewServe_events]
        rfl
      · rw [startNewServe_waitingForServe]
      · rw [startNewServe_bounceCount]
      · rw [startNewServe_lastBounceOnRole]
      · rw [startNewServe_penaltyDispatches]
    · -- rotation around a penalized occupant
      refine ⟨?_, ?_, ?_, ?_, ?_⟩
      · rw [startNewServe_events]
        rfl
      · rw [startNewServe_waitingForServe]
      · rw [startNewServe_bounceCount]
      · rw [startNewServe_lastBounceOnRole]
      · rw [startNewServe_penaltyDispatches, setPlayerPosition_penaltyDispatches,
          rotateOne_penaltyDispatches, rotateOne_penaltyDispatches, rotateOne_penaltyDispatches]

/-- Claim C5 (confirmed).  On every ball–ground bounce: when the quadrant
differs from `lastBounceOnRole` the counter is set to 1 (and the quadrant
recorded) with no penalty; when it matches, the counter increments; and
whenever the incremented counter reaches 2 exactly one penalty dispatch and
exactly one serve re-arm happen (`waitingForServe := true`,
`bounceCount := 0`, `lastBounceOnRole` cleared). -/
theorem C5_bounce_counting (rs : RoomState) :
    (getQuadrantRole rs.ballBody.x rs.ballBody.z ≠ rs.state.ball.lastBounceOnRole →
      (handleBallBounce rs).1.state.ball.bounceCount = 1
      ∧ (handleBallBounce rs).1.state.ball.lastBounceOnRole
          = getQuadrantRole rs.ballBody.x rs.ballBody.z
      ∧ serveReadyCount (handleBallBounce rs).2 = 0
      ∧ (handleBallBounce rs).1.penaltyDispatches = rs.penaltyDispatches)
    ∧ (getQuadrantRole rs.ballBody.x rs.ballBody.z = rs.state.ball.lastBounceOnRole →
      rs.state.ball.bounceCount + 1 < 2 →
      (handleBallBounce rs).1.state.ball.bounceCount = rs.state.ball.bounceCount + 1
      ∧ serveReadyCount (handleBallBounce rs).2 = 0
      ∧ (handleBallBounce rs).1.penaltyDispatches = rs.penaltyDispatches)
    ∧ (getQuadrantRole rs.ballBody.x rs.ballBody.z = rs.state.ball.lastBounceOnRole →
      rs.state.ball.bounceCount + 1 ≥ 2 →
      (handleBallBounce rs).1.penaltyDispatches = rs.penaltyDispatches + 1
      ∧ serveReadyCount (handleBallBounce rs).2 = 1
      ∧ (handleBallBounce rs).1.state.waitingForServe = true
      ∧ (handleBallBounce rs).1.state.ball.bounceCount = 0
      ∧ (handleBallBounce rs).1.state.ball.lastBounceOnRole = "") := by
  refine ⟨?_, ?_, ?_⟩
  · intro h
    unfold handleBallBounce
    simp only []
    rw [if_neg h]
    norm_num [serveReadyCount]
  · intro h h2
    unfold handleBallBounce
    simp only []
    rw [if_pos h]
    rw [if_neg (by omega : ¬ rs.state.ball.bounceCount + 1 ≥ 2)]
    refine ⟨rfl, ?_, rfl⟩
    exact serveReadyCount_highlights _ _ _ _ _ _
  · intro h h2
    unfold handleBallBounce
    simp only []
    rw [if_pos h]
    rw [if_pos h2]
    have res := handleDoubleBouncePenalty_resolution
      (getQuadrantRole rs.ballBody.x rs.ballBody.z)
      { rs with state.ball :=
          { rs.state.ball with
            bounceCount := rs.state.ball.bounceCount + 1,
            lastBounceTime := rs.state.elapsed } }
    refine ⟨?_, ?_, res.2.1, res.2.2.1, res.2.2.2.1⟩
    · rw [res.2.2.2.2]
    · rw [serveReadyCount_append, res.1, serveReadyCount_highlights]

/-- The room one bounce after the ball landed in the mato quadrant: the
next bounce in the same quadrant reaches two. -/
def bounceWitnessState : RoomState :=
  (handleBallBounce (setBallBodyPos 1 (-1) roomAfterFourJoins)).1

/-- Witness for `C5_bounce_counting`: in the four-player room the second
consecutive mato-quadrant bounce dispatches exactly one penalty and re-arms
the serve exactly once. -/
theorem C5_bounce_counting_witness :
    (getQuadrantRole bounceWitnessState.ballBody.x bounceWitnessState.ballBody.z
        = bounceWitnessState.state.ball.lastBounceOnRole)
    ∧ bounceWitnessState.state.ball.bounceCount + 1 ≥ 2
    ∧ ((handleBallBounce bounceWitnessState).1.penaltyDispatches
          = bounceWitnessState.penaltyDispatches + 1
      ∧ serveReadyCount (handleBallBounce bounceWitnessState).2 = 1
      ∧ (handleBallBounce bounceWitnessState).1.state.waitingForServe = true
      ∧ (handleBallBounce bounceWitnessState).1.state.ball.bounceCount = 0
      ∧ (handleBallBounce bounceWitnessState).1.state.ball.lastBounceOnRole = "") :=
  ⟨by rfl, by with_unfolding_all decide,
    (C5_bounce_counting bounceWitnessState).2.2 (by rfl) (by with_unfolding_all decide)⟩

/-! ### C6 — the serve-target cycle -/

/-- The target roles named by `serve` broadcasts, in order. -/
def serveTargetsOf (evs : List Event) : List String :=
  evs.filterMap (fun e => match e with | Event.serve _ _ t => some t | _ => none)

/-- A sequence of serves with adversarial interference: before each serve
the environment rewrites `ball.lastTouchedBy` arbitrarily (any contact
updates that field), then the given player serves.  Returns the final room
and the serve targets broadcast along the way. -/
def runServes : List (String × String) → RoomState → RoomState × List String
  | [], rs => (rs, [])
  | (pid, touch) :: rest, rs =>
    let rs1 := { rs with state.ball := { rs.state.ball with lastTouchedBy := touch } }
    let r := performServe pid rs1
    let tl := runServes rest r.1
    (tl.1, serveTargetsOf r.2 ++ tl.2)

theorem performServe_players (pid : String) (rs : RoomState) :
    (performServe pid rs).1.state.players = rs.state.players := by
  simp only [performServe]
  split <;> rfl

theorem performServe_some (pid : String) (rs : RoomState) (p : PlayerState)
    (h : findPlayer rs.state pid = some p) :
    (performServe pid rs).1.nextServeTargetIndex = (rs.nextServeTargetIndex + 1) % 3
    ∧ serveTargetsOf (performServe pid rs).2
        = [servingTargets.getD rs.nextServeTargetIndex ""] := by
  simp only [performServe, h]
  exact ⟨rfl, rfl⟩

/-- The targets of a run of `n` serves beginning at cursor `i < 3` are the
cycle entries `i, i+1, …` (mod 3), whatever the serving players touched or
were named. -/
theorem runServes_targets (run : List (String × String)) (rs : RoomState)
    (hidx : rs.nextServeTargetIndex < 3)
    (hpres : ∀ pr ∈ run, (rs.state.players.any (fun p => p.id == pr.1)) = true) :
    (runServes run rs).2 = (List.range run.length).map
      (fun k => servingTargets.getD ((rs.nextServeTargetIndex + k) % 3) "") := by
  induction run generalizing rs with
  | nil => rfl
  | cons pr rest ih =>
    obtain ⟨pid, touch⟩ := pr
    have hpr := hpres (pid, touch) (List.mem_cons_self _ _)
    have hfind : ∃ p, findPlayer rs.state pid = some p := by
      rcases List.any_eq_true.mp hpr with ⟨p, hp, hpe⟩
      cases hf : findPlayer rs.state pid with
      | some q => exact ⟨q, rfl⟩
      | none =>
        exact absurd hpe (by simpa using List.find?_eq_none.mp hf p hp)
    obtain ⟨p, hp⟩ := hfind
    set rs1 : RoomState :=
      { rs with state.ball := { rs.state.ball with lastTouchedBy := touch } } with hrs1
    have hp1 : findPlayer rs1.state pid = some p := hp
    have hmain := performServe_some pid rs1 p hp1
    simp only [runServes]
    rw [hmain.2]
    have hplayers : (performServe pid rs1).1.state.players = rs.state.players :=
      performServe_players pid rs1
    have hidx1 : (performServe pid rs1).1.nextServeTargetIndex < 3 := by
      rw [hmain.1]
      exact Nat.mod_lt _ (by norm_num)
    have ihres := ih (performServe pid rs1).1 hidx1 (by
      intro q hq
      rw [hplayers]
      exact hpres q (List.mem_cons_of_mem _ hq))
    rw [ihres, hmain.1]
    show (servingTargets.getD rs.nextServeTargetIndex "") :: _ = _
    rw [List.length_cons, List.range_succ_eq_map, List.map_cons, List.map_map]
    congr 1
    · rw [Nat.add_zero, Nat.mod_eq_of_lt hidx]
    · apply List.map_congr_left
      intro k _
      show servingTargets.getD (((rs.nextServeTargetIndex + 1) % 3 + k) % 3) ""
        = servingTargets.getD ((rs.nextServeTargetIndex + Nat.succ k) % 3) ""
      rw [Nat.mod_add_mod]
      congr 1
      omega

/-- Claim C6 (confirmed).  Across any two runs with the same number of
serves, starting from a fresh serve cursor, the k-th serve targets the k-th
element (mod 3) of the fixed cycle `["mato", "rey2", "rey1"]`, whatever the
`lastTouchedBy` interference and whichever players serve in either run; in
particular both runs broadcast identical target sequences. -/
theorem C6_serve_cycle_deterministic (run1 run2 : List (String × String))
    (rs1 rs2 : RoomState)
    (hi1 : rs1.nextServeTargetIndex = 0) (hi2 : rs2.nextServeTargetIndex = 0)
    (hp1 : ∀ pr ∈ run1, (rs1.state.players.any (fun p => p.id == pr.1)) = true)
    (hp2 : ∀ pr ∈ run2, (rs2.state.players.any (fun p => p.id == pr.1)) = true)
    (hlen : run1.length = run2.length) :
    (runServes run1 rs1).2 = (List.range run1.length).map
      (fun k => servingTargets.getD (k % 3) "")
    ∧ (runServes run1 rs1).2 = (runServes run2 rs2).2 := by
  have h1 := runServes_targets run1 rs1 (by rw [hi1]; norm_num) hp1
  have h2 := runServes_targets run2 rs2 (by rw [hi2]; norm_num) hp2
  rw [hi1] at h1
  rw [hi2] at h2
  simp only [Nat.zero_add] at h1 h2
  exact ⟨h1, by rw [h1, h2, hlen]⟩

/-- Witness for `C6_serve_cycle_deterministic`: four serves by the king of
the four-player room versus four serves in the five-player room with
different interference produce the same `mato, rey2, rey1, mato` sequence. -/
theorem C6_serve_cycle_witness :
    (runServes [("p1", "a"), ("p1", "b"), ("p1", "c"), ("p1", "d")] roomAfterFourJoins).2
      = ["mato", "rey2", "rey1", "mato"]
    ∧ (runServes [("p1", "a"), ("p1", "b"), ("p1", "c"), ("p1", "d")] roomAfterFourJoins).2
      = (runServes [("p2", "w"), ("p3", "x"), ("p1", "y"), ("p4", "z")] roomAfterFiveJoins).2 := by
  have main := C6_serve_cycle_deterministic
    [("p1", "a"), ("p1", "b"), ("p1", "c"), ("p1", "d")]
    [("p2", "w"), ("p3", "x"), ("p1", "y"), ("p4", "z")]
    roomAfterFourJoins roomAfterFiveJoins
    (by rfl) (by rfl) (by decide) (by decide) (by rfl)
  exact ⟨by rw [main.1]; rfl, main.2⟩

/-! ### C9 — guard failures degrade to silent no-ops -/

/-- Claim C9 (confirmed).  Every failed guard leaves the room unchanged and
broadcasts nothing: an input message from an unknown or inactive player, an
action by a player with no body, a serve by a player whose role is not the
current server or while not waiting for a serve, a kick or head with the
ball beyond the 1.5 contact distance, a head outside the head hitbox, and a
promotion from an empty queue. -/
theorem C9_guard_failures_are_noops :
    (∀ sessionId : String, ∀ input : InputMessage, ∀ rs : RoomState,
      findPlayer rs.state sessionId = none →
      onInputMessage sessionId input rs = (rs, []))
    ∧ (∀ sessionId : String, ∀ input : InputMessage, ∀ rs : RoomState, ∀ p : PlayerState,
      findPlayer rs.state sessionId = some p → p.active = false →
      onInputMessage sessionId input rs = (rs, []))
    ∧ (∀ pid action : String, ∀ rs : RoomState,
      findPlayer rs.state pid = none →
      handlePlayerAction pid action rs = (rs, []))
    ∧ (∀ pid action : String, ∀ rs : RoomState,
      lookupBody rs pid = none →
      handlePlayerAction pid action rs = (rs, []))
    ∧ (∀ pid : String, ∀ rs : RoomState, ∀ p : PlayerState, ∀ b : BodyState,
      findPlayer rs.state pid = some p → lookupBody rs pid = some b →
      ¬(p.role = rs.state.currentServer ∧ rs.state.waitingForServe = true) →
      handlePlayerAction pid "serve" rs = (rs, []))
    ∧ (∀ pid action : String, ∀ rs : RoomState, ∀ p : PlayerState, ∀ b : BodyState,
      findPlayer rs.state pid = some p → lookupBody rs pid = some b →
      action ≠ "serve" →
      (rs.ballBody.x - b.x) ^ 2 + (rs.ballBody.y - b.y) ^ 2 + (rs.ballBody.z - b.z) ^ 2 > 9/4 →
      handlePlayerAction pid action rs = (rs, []))
    ∧ (∀ pid : String, ∀ rs : RoomState, ∀ p : PlayerState, ∀ b : BodyState,
      findPlayer rs.state pid = some p → lookupBody rs pid = some b →
      ¬((rs.ballBody.x - b.x) ^ 2 + (rs.ballBody.y - b.y) ^ 2 + (rs.ballBody.z - b.z) ^ 2 > 9/4) →
      ((rs.ballBody.x - b.x) ^ 2 + (rs.ballBody.z - b.z) ^ 2 > 1
        ∨ |rs.ballBody.y - (b.y + (9/10 - 1/5))| > 3/5) →
      handlePlayerAction pid "head" rs = (rs, []))
    ∧ (∀ rs : RoomState, rs.state.queue = [] → promoteFromQueue rs = rs) := by
  refine ⟨?_, ?_, ?_, ?_, ?_, ?_, ?_, ?_⟩
  · intro sessionId input rs h
    simp only [onInputMessage, h]
  · intro sessionId input rs p h hact
    simp only [onInputMessage, h, hact]
    rfl
  · intro pid action rs h
    simp only [handlePlayerAction, h]
  · intro pid action rs h
    simp only [handlePlayerAction, h]
    split <;> simp_all
  · intro pid rs p b hp hb hguard
    simp only [handlePlayerAction, hp, hb]
    rw [if_pos trivial, if_neg hguard]
  · intro pid action rs p b hp hb hserve hfar
    simp only [handlePlayerAction, hp, hb]
    rw [if_neg hserve, if_pos hfar]
  · intro pid rs p b hp hb hnear hhead
    simp only [handlePlayerAction, hp, hb]
    rw [if_neg (by decide : ¬("head" : String) = "serve"), if_neg hnear,
      if_pos trivial,
      if_neg (by simp only [decide_eq_true_eq, not_not]; exact hhead)]
  · intro rs h
    simp only [promoteFromQueue, h]

/-- Witness for `C9_guard_failures_are_noops`: an input message from an
unknown session id and a promotion from the drained queue of the
four-player room are both exact no-ops. -/
theorem C9_guard_failures_witness :
    onInputMessage "ghost" ⟨(0, 0), false, none⟩ roomAfterFourJoins = (roomAfterFourJoins, [])
    ∧ promoteFromQueue roomAfterFourJoins = roomAfterFourJoins :=
  ⟨C9_guard_failures_are_noops.1 "ghost" ⟨(0, 0), false, none⟩ roomAfterFourJoins (by rfl),
   C9_guard_failures_are_noops.2.2.2.2.2.2.2 roomAfterFourJoins (by rfl)⟩

/-! ### C8 — sortedness and content of the leaderboard, and the amended
clock-tick behaviour -/

/-- Descending comparison used by the leaderboard. -/
def timeGE (a b : PlayerState) : Prop := b.timeAsRey ≤ a.timeAsRey

theorem insertByTimeDesc_perm (x : PlayerState) (l : List PlayerState) :
    List.Perm (insertByTimeDesc x l) (x :: l) := by
  induction l with
  | nil => exact List.Perm.refl _
  | cons y ys ih =>
    unfold insertByTimeDesc
    split
    · exact (ih.cons y).trans (List.Perm.swap x y ys)
    · exact List.Perm.refl _

theorem insertByTimeDesc_sorted (x : PlayerState) (l : List PlayerState)
    (h : List.Sorted timeGE l) : List.Sorted timeGE (insertByTimeDesc x l) := by
  induction l with
  | nil => simp [insertByTimeDesc, List.sorted_singleton]
  | cons y ys ih =>
    rw [List.sorted_cons] at h
    unfold insertByTimeDesc
    split
    · rename_i hxy
      refine List.sorted_cons.mpr ⟨?_, ih h.2⟩
      intro z hz
      have hz2 := (insertByTimeDesc_perm x ys).mem_iff.mp hz
      rcases List.mem_cons.mp hz2 with rfl | hz3
      · exact hxy
      · exact h.1 z hz3
    · rename_i hxy
      refine List.sorted_cons.mpr ⟨?_, List.sorted_cons.mpr h⟩
      intro z hz
      rcases List.mem_cons.mp hz with rfl | hz3
      · exact le_of_lt (lt_of_not_le hxy)
      · exact le_trans (h.1 z hz3) (le_of_lt (lt_of_not_le hxy))

theorem sortByTimeDesc_perm (l : List PlayerState) :
    List.Perm (sortByTimeDesc l) l := by
  induction l with
  | nil => exact List.Perm.refl _
  | cons x xs ih =>
    unfold sortByTimeDesc
    exact (insertByTimeDesc_perm x (sortByTimeDesc xs)).trans (ih.cons x)

theorem sortByTimeDesc_sorted (l : List PlayerState) :
    List.Sorted timeGE (sortByTimeDesc l) := by
  induction l with
  | nil => exact List.sorted_nil
  | cons x xs ih =>
    unfold sortByTimeDesc
    exact insertByTimeDesc_sorted x _ ih

/-- Claim C8 as amended: a 1 Hz tick outside a running match changes
nothing; during a running match it advances `elapsed` by one and sets the
king occupant's `timeAsRey` to `elapsed - reyStartTime`, where
`reyStartTime` is recorded at the first tick that sees an occupied king slot
and is never re-recorded when the occupant changes (so the delta is measured
from match start, not from the occupant's accession — see the
counterexample); when the advanced `elapsed` reaches `matchDuration` the
match is marked ended and the single broadcast carries the leaderboard of
exactly the players with positive `timeAsRey`, sorted descending; otherwise
nothing is broadcast and the match is not ended. -/
theorem C8_clock_tick_amended (rs : RoomState) :
    (¬(rs.state.matchStarted = true ∧ rs.state.matchEnded = false) →
      matchClockTick rs = (rs, []))
    ∧ (rs.state.matchStarted = true → rs.state.matchEnded = false →
      ((matchClockTick rs).1.state.elapsed = rs.state.elapsed + 1
      ∧ (∀ reyPlayer : PlayerState, getPlayerByRole rs.state "rey" = some reyPlayer →
          (matchClockTick rs).1.reyStartTime =
            (if rs.reyStartTime = 0 then rs.state.elapsed + 1 else rs.reyStartTime)
          ∧ ∃ q ∈ (matchClockTick rs).1.state.players, q.id = reyPlayer.id ∧
              q.timeAsRey = (rs.state.elapsed + 1) -
                (if rs.reyStartTime = 0 then rs.state.elapsed + 1 else rs.reyStartTime))
      ∧ (getPlayerByRole rs.state "rey" = none →
          (matchClockTick rs).1.reyStartTime = rs.reyStartTime
          ∧ (matchClockTick rs).1.state.players = rs.state.players)
      ∧ (rs.state.elapsed + 1 ≥ rs.state.matchDuration →
          (matchClockTick rs).1.state.matchEnded = true
          ∧ ∃ lb : List (String × ℤ),
              (matchClockTick rs).2 = [Event.matchEnd lb]
              ∧ List.Sorted (fun a b : String × ℤ => b.2 ≤ a.2) lb
              ∧ List.Perm lb
                  (((matchClockTick rs).1.state.players.filter
                      (fun p => p.timeAsRey > 0)).map (fun p => (p.nickname, p.timeAsRey))))
      ∧ (rs.state.elapsed + 1 < rs.state.matchDuration →
          (matchClockTick rs).1.state.matchEnded = false
          ∧ (matchClockTick rs).2 = []))) := by
  constructor
  · intro h
    unfold matchClockTick
    rw [if_neg (by
      intro hc
      exact h ⟨hc.1, by simpa using hc.2⟩)]
  · intro hs he
    unfold matchClockTick
    rw [if_pos (show rs.state.matchStarted = true ∧ ¬rs.state.matchEnded = true from
      ⟨hs, by simp [he]⟩)]
    simp only [getPlayerByRole]
    cases hfind : rs.state.players.find? (fun p => p.role == "rey") with
    | some reyP =>
      simp only []
      by_cases hz : rs.reyStartTime = 0
      · rw [if_pos hz]
        by_cases hend : rs.state.elapsed + 1 ≥ rs.state.matchDuration
        · rw [if_pos hend]
          refine ⟨?_, ?_, ?_, ?_, ?_⟩
          · simp only [endMatch]
          · intro rp hrp
            cases hrp
            rw [if_pos hz]
            refine ⟨by simp only [endMatch], ?_⟩
            refine ⟨_, List.mem_map_of_mem _ (List.mem_of_find?_eq_some hfind), ?_, ?_⟩
            · rw [if_pos (beq_self_eq_true reyP.id)]
            · rw [if_pos (beq_self_eq_true reyP.id)]
          · intro hnone
            cases hnone
          · intro _
            refine ⟨by simp only [endMatch], ?_⟩
            refine ⟨_, rfl, ?_, ?_⟩
            · exact (sortByTimeDesc_sorted _).map _ (fun a b hab => hab)
            · exact (sortByTimeDesc_perm _).map _
          · intro hlt
            exact absurd hend (by omega)
        · rw [if_neg hend]
          refine ⟨rfl, ?_, ?_, ?_, ?_⟩
          · intro rp hrp
            cases hrp
            rw [if_pos hz]
            refine ⟨rfl, ?_⟩
            refine ⟨_, List.mem_map_of_mem _ (List.mem_of_find?_eq_some hfind), ?_, ?_⟩
            · rw [if_pos (beq_self_eq_true reyP.id)]
            · rw [if_pos (beq_self_eq_true reyP.id)]
          · intro hnone
            cases hnone
          · intro hge
            exact absurd hge hend
          · intro _
            exact ⟨he, rfl⟩
      · rw [if_neg hz]
        by_cases hend : rs.state.elapsed + 1 ≥ rs.state.matchDuration
        · rw [if_pos hend]
          refine ⟨?_, ?_, ?_, ?_, ?_⟩
          · simp only [endMatch]
          · intro rp hrp
            cases hrp
            rw [if_neg hz]
            refine ⟨by simp only [endMatch], ?_⟩
            refine ⟨_, List.mem_map_of_mem _ (List.mem_of_find?_eq_some hfind), ?_, ?_⟩
            · rw [if_pos (beq_self_eq_true reyP.id)]
            · rw [if_pos (beq_self_eq_true reyP.id)]
          · intro hnone
            cases hnone
          · intro _
            refine ⟨by simp only [endMatch], ?_⟩
            refine ⟨_, rfl, ?_, ?_⟩
            · exact (sortByTimeDesc_sorted _).map _ (fun a b hab => hab)
            · exact (sortByTimeDesc_perm _).map _
          · intro hlt
            exact absurd hend (by omega)
        · rw [if_neg hend]
          refine ⟨rfl, ?_, ?_, ?_, ?_⟩
          · intro rp hrp
            cases hrp
            rw [if_neg hz]
            refine ⟨rfl, ?_⟩
            refine ⟨_, List.mem_map_of_mem _ (List.mem_of_find?_eq_some hfind), ?_, ?_⟩
            · rw [if_pos (beq_self_eq_true reyP.id)]
            · rw [if_pos (beq_self_eq_true reyP.id)]
          · intro hnone
            cases hnone
          · intro hge
            exact absurd hge hend
          · intro _
            exact ⟨he, rfl⟩
    | none =>
      simp only []
      by_cases hend : rs.state.elapsed + 1 ≥ rs.state.matchDuration
      · rw [if_pos hend]
        refine ⟨?_, ?_, ?_, ?_, ?_⟩
        · simp only [endMatch]
        · intro rp hrp
          cases hrp
        · intro _
          exact ⟨by simp only [endMatch], by simp only [endMatch]⟩
        · intro _
          refine ⟨by simp only [endMatch], ?_⟩
          refine ⟨_, rfl, ?_, ?_⟩
          · exact (sortByTimeDesc_sorted _).map _ (fun a b hab => hab)
          · exact (sortByTimeDesc_perm _).map _
        · intro hlt
          exact absurd hend (by omega)
      · rw [if_neg hend]
        refine ⟨rfl, ?_, ?_, ?_, ?_⟩
        · intro rp hrp
          cases hrp
        · intro _
          exact ⟨rfl, rfl⟩
        · intro hge
          exact absurd hge hend
        · intro _
          exact ⟨he, rfl⟩

/-- Witness for `C8_clock_tick_amended`: one tick of the running
five-player match advances `elapsed` to 1 and records the king p1's
`timeAsRey` as the delta against the freshly recorded `reyStartTime`. -/
theorem C8_clock_tick_witness :
    (matchClockTick roomAfterFiveJoins).1.state.elapsed
        = roomAfterFiveJoins.state.elapsed + 1
    ∧ ∃ q ∈ (matchClockTick roomAfterFiveJoins).1.state.players, q.id = "p1" ∧
        q.timeAsRey = (roomAfterFiveJoins.state.elapsed + 1) -
          (if roomAfterFiveJoins.reyStartTime = 0 then roomAfterFiveJoins.state.elapsed + 1
           else roomAfterFiveJoins.reyStartTime) := by
  have main := (C8_clock_tick_amended roomAfterFiveJoins).2 (by rfl) (by rfl)
  have hfind : getPlayerByRole roomAfterFiveJoins.state "rey" = some p1AfterFourJoins := by
    with_unfolding_all rfl
  obtain ⟨-, q, hq, hid, ht⟩ := main.2.1 p1AfterFourJoins hfind
  exact ⟨main.1, q, hq, by rw [hid]; rfl, ht⟩

/-! ### C7 — the queue discipline on all reachable states

`Reachable` closes the initial room under every operation of the room:
joins (with fresh session ids — Colyseus session ids are unique), leaves,
input messages, ball–ground collision notifications, the 1 Hz clock, the
per-tick replication copy and clamping, and arbitrary environment motion of
the physics bodies (`world.step` between rule events). -/

/-- What a physics step may do: move the ball body and the player bodies
(same set of body keys), touching nothing else. -/
def EnvFrame (rs rs1 : RoomState) : Prop :=
  rs1.state = rs.state
  ∧ rs1.playerBodies.map (fun e => e.1) = rs.playerBodies.map (fun e => e.1)
  ∧ rs1.playerJumpExtraG = rs.playerJumpExtraG
  ∧ rs1.nextServeTargetIndex = rs.nextServeTargetIndex
  ∧ rs1.reyStartTime = rs.reyStartTime
  ∧ rs1.penaltyDispatches = rs.penaltyDispatches
  ∧ rs1.enqueueLog = rs.enqueueLog
  ∧ rs1.lastServeDistSq = rs.lastServeDistSq

/-- The reachable room states. -/
inductive Reachable : RoomState → Prop where
  | init : Reachable initialRoomState
  | join (rs : RoomState) (sessionId nickname : String) (h : Reachable rs)
      (fresh : ∀ p ∈ rs.state.players, p.id ≠ sessionId) :
      Reachable (onJoin sessionId nickname rs).1
  | leave (rs : RoomState) (sessionId : String) (h : Reachable rs) :
      Reachable (onLeave sessionId rs).1
  | input (rs : RoomState) (sessionId : String) (msg : InputMessage) (h : Reachable rs) :
      Reachable (onInputMessage sessionId msg rs).1
  | bounce (rs : RoomState) (h : Reachable rs) :
      Reachable (onBallGroundCollision rs).1
  | clock (rs : RoomState) (h : Reachable rs) :
      Reachable (matchClockTick rs).1
  | copyTick (rs : RoomState) (h : Reachable rs) :
      Reachable (updatePhysicsCopy rs)
  | clampTick (rs : RoomState) (h : Reachable rs) :
      Reachable (updateGameState rs).1
  | envMotion (rs rs1 : RoomState) (h : Reachable rs) (hf : EnvFrame rs rs1) :
      Reachable rs1

/-- The id/activity/role facts of one roster record. -/
def rosterEntry (p : PlayerState) : String × Bool × String := (p.id, p.active, p.role)

/-- The queue discipline over a roster, a queue and the enqueue log: player
ids are unique; an inactive player always has role `"queue"`; every queued
id belongs to an inactive player; the queue has no duplicates and lists ids
in enqueue order (it is a sublist of the ghost enqueue log). -/
abbrev QueueDiscipline (players : List PlayerState) (queue log : List String) : Prop :=
  (players.map (fun p => p.id)).Nodup
  ∧ (∀ p ∈ players, p.active = false → p.role = "queue")
  ∧ (∀ id ∈ queue, ∃ p ∈ players, p.id = id ∧ p.active = false)
  ∧ queue.Nodup
  ∧ queue.Sublist log

/-- The queue discipline of a room state. -/
abbrev RoomInv (rs : RoomState) : Prop :=
  QueueDiscipline rs.state.players rs.state.queue rs.enqueueLog

/-- Two rooms with the same roster facts, queue and enqueue log satisfy the
same queue discipline. -/
def SameRoster (rs rs1 : RoomState) : Prop :=
  rs1.state.players.map rosterEntry = rs.state.players.map rosterEntry
  ∧ rs1.state.queue = rs.state.queue
  ∧ rs1.enqueueLog = rs.enqueueLog

theorem sameRoster_refl (rs : RoomState) : SameRoster rs rs := ⟨rfl, rfl, rfl⟩

theorem sameRoster_trans {a b c : RoomState} (h1 : SameRoster a b) (h2 : SameRoster b c) :
    SameRoster a c :=
  ⟨h2.1.trans h1.1, h2.2.1.trans h1.2.1, h2.2.2.trans h1.2.2⟩

theorem roomInv_of_sameRoster {rs rs1 : RoomState} (hs : SameRoster rs rs1)
    (h : RoomInv rs) : RoomInv rs1 := by
  obtain ⟨hmap, hq, hlog⟩ := hs
  obtain ⟨h1, h2, h3, h4, h5⟩ := h
  refine ⟨?_, ?_, ?_, ?_, ?_⟩
  · have : rs1.state.players.map (fun p => p.id)
        = (rs1.state.players.map rosterEntry).map (fun e => e.1) := by
      rw [List.map_map]; rfl
    rw [this, hmap, List.map_map]
    exact h1
  · intro p hp hpa
    have : rosterEntry p ∈ rs.state.players.map rosterEntry := by
      rw [← hmap]
      exact List.mem_map_of_mem _ hp
    obtain ⟨q, hq2, hq3⟩ := List.mem_map.mp this
    have hqa : q.active = p.active := congrArg (fun e => e.2.1) hq3
    have hqr : q.role = p.role := congrArg (fun e => e.2.2) hq3
    rw [← hqr]
    exact h2 q hq2 (by rw [hqa, hpa])
  · intro id hid
    rw [hq] at hid
    obtain ⟨p, hp, hpid, hpa⟩ := h3 id hid
    have : rosterEntry p ∈ rs1.state.players.map rosterEntry := by
      rw [hmap]
      exact List.mem_map_of_mem _ hp
    obtain ⟨q, hq2, hq3⟩ := List.mem_map.mp this
    refine ⟨q, hq2, ?_, ?_⟩
    · have := congrArg (fun e => e.1) hq3
      simpa [rosterEntry, hpid] using this
    · have := congrArg (fun e => e.2.1) hq3
      simpa [rosterEntry, hpa] using this
  · rw [hq]; exact h4
  · rw [hq, hlog]; exact h5

theorem updatePlayer_map_id (ps : List PlayerState) (pid : String)
    (f : PlayerState → PlayerState) (hf : ∀ p, (f p).id = p.id) :
    (updatePlayer ps pid f).map (fun p => p.id) = ps.map (fun p => p.id) := by
  unfold updatePlayer
  rw [List.map_map]
  apply List.map_congr_left
  intro p _
  by_cases h : p.id = pid <;> simp [h, hf]

theorem updatePlayer_map_rosterEntry (ps : List PlayerState) (pid : String)
    (f : PlayerState → PlayerState) (hf : ∀ p, rosterEntry (f p) = rosterEntry p) :
    (updatePlayer ps pid f).map rosterEntry = ps.map rosterEntry := by
  unfold updatePlayer
  rw [List.map_map]
  apply List.map_congr_left
  intro p _
  by_cases h : p.id = pid <;> simp [h, hf]

/-- With unique ids, two roster records sharing an id are the same record. -/
theorem mem_id_unique {ps : List PlayerState}
    (hnd : (ps.map (fun p => p.id)).Nodup) {p q : PlayerState}
    (hp : p ∈ ps) (hq : q ∈ ps) (hid : p.id = q.id) : p = q := by
  induction ps with
  | nil => cases hp
  | cons a l ih =>
    rw [List.map_cons, List.nodup_cons] at hnd
    rcases List.mem_cons.mp hp with rfl | hp2
    · rcases List.mem_cons.mp hq with rfl | hq2
      · rfl
      · exact absurd (hid ▸ List.mem_map_of_mem (fun p => p.id) hq2) hnd.1
    · rcases List.mem_cons.mp hq with rfl | hq2
      · exact absurd (hid ▸ List.mem_map_of_mem (fun p => p.id) hp2) hnd.1
      · exact ih hnd.2 hp2 hq2

/-- With unique ids, looking a member up by its id finds that member. -/
theorem findPlayer_eq_of_mem {s : GameState}
    (hnd : (s.players.map (fun p => p.id)).Nodup) {p : PlayerState} (hp : p ∈ s.players) :
    findPlayer s p.id = some p := by
  cases hf : findPlayer s p.id with
  | none =>
    exact absurd (by simp : (p.id == p.id) = true)
      (by simpa using List.find?_eq_none.mp hf p hp)
  | some q =>
    have hq : q ∈ s.players := List.mem_of_find?_eq_some hf
    have hqid : q.id = p.id := by simpa using List.find?_some hf
    rw [mem_id_unique hnd hq hp hqid]

/-! Queue-discipline preservation, list level: one lemma per primitive
mutation shape of the roster/queue. -/

theorem mem_updatePlayer_of_ne {ps : List PlayerState} {p : PlayerState} (pid : String)
    (f : PlayerState → PlayerState) (hp : p ∈ ps) (hne : p.id ≠ pid) :
    p ∈ updatePlayer ps pid f := by
  have hm : (if p.id == pid then f p else p)
      ∈ List.map (fun q => if q.id == pid then f q else q) ps :=
    List.mem_map_of_mem (fun q => if q.id == pid then f q else q) hp
  have he : (if p.id == pid then f p else p) = p := by simp [hne]
  rw [he] at hm
  exact hm

theorem mem_updatePlayer_self {ps : List PlayerState} {p : PlayerState} (pid : String)
    (f : PlayerState → PlayerState) (hp : p ∈ ps) (heq : p.id = pid) :
    f p ∈ updatePlayer ps pid f := by
  have hm : (if p.id == pid then f p else p)
      ∈ List.map (fun q => if q.id == pid then f q else q) ps :=
    List.mem_map_of_mem (fun q => if q.id == pid then f q else q) hp
  have he : (if p.id == pid then f p else p) = f p := by simp [heq]
  rw [he] at hm
  exact hm

theorem qd_active_of_role {players : List PlayerState} {queue log : List String}
    (h : QueueDiscipline players queue log) {p : PlayerState} (hp : p ∈ players)
    (hrole : p.role ≠ "queue") : p.active = true := by
  cases hpa : p.active
  · exact absurd (h.2.1 p hp hpa) hrole
  · rfl

theorem qd_not_mem_queue_of_active {players : List PlayerState} {queue log : List String}
    (h : QueueDiscipline players queue log) {p : PlayerState} (hp : p ∈ players)
    (hact : p.active = true) : p.id ∉ queue := by
  intro hin
  obtain ⟨q, hq, hqid, hqa⟩ := h.2.2.1 p.id hin
  rw [mem_id_unique h.1 hq hp hqid] at hqa
  rw [hact] at hqa
  cases hqa

theorem qd_deactivate {players : List PlayerState} {queue log : List String} (pid : String)
    (h : QueueDiscipline players queue log) :
    QueueDiscipline (updatePlayer players pid
      (fun p => { p with active := false, role := "queue" })) queue log := by
  obtain ⟨h1, h2, h3, h4, h5⟩ := h
  refine ⟨?_, ?_, ?_, h4, h5⟩
  · rw [updatePlayer_map_id players pid
      (fun p => { p with active := false, role := "queue" }) (fun p => rfl)]
    exact h1
  · intro p hp hpa
    obtain ⟨p0, hp0, rfl⟩ := List.mem_map.mp hp
    cases hbeq : (p0.id == pid) with
    | false => simp only [hbeq, Bool.false_eq_true, if_false] at hpa ⊢; exact h2 p0 hp0 hpa
    | true => simp [hbeq]
  · intro id hid
    obtain ⟨p0, hp0, hpid, hpa⟩ := h3 id hid
    refine ⟨(if (p0.id == pid) = true then { p0 with active := false, role := "queue" } else p0),
      List.mem_map_of_mem _ hp0, ?_, ?_⟩
    · cases hbeq : (p0.id == pid) <;> simp [hbeq, hpid]
    · cases hbeq : (p0.id == pid) <;> simp [hbeq, hpa]

theorem qd_pop {players : List PlayerState} {a : String} {rest log : List String}
    (h : QueueDiscipline players (a :: rest) log) :
    QueueDiscipline players rest log := by
  obtain ⟨h1, h2, h3, h4, h5⟩ := h
  exact ⟨h1, h2, fun id hid => h3 id (List.mem_cons_of_mem a hid),
    (List.nodup_cons.mp h4).2, (List.sublist_cons_self a rest).trans h5⟩

theorem qd_activate {players : List PlayerState} {a : String} {rest log : List String}
    (role : String) (hrole : role ≠ "queue")
    (h : QueueDiscipline players (a :: rest) log) :
    QueueDiscipline (updatePlayer players a
      (fun p => { p with active := true, role := role })) rest log := by
  obtain ⟨h1, h2, h3, h4, h5⟩ := h
  have hnotin : a ∉ rest := (List.nodup_cons.mp h4).1
  refine ⟨?_, ?_, ?_, (List.nodup_cons.mp h4).2, (List.sublist_cons_self a rest).trans h5⟩
  · rw [updatePlayer_map_id players a
      (fun p => { p with active := true, role := role }) (fun p => rfl)]
    exact h1
  · intro p hp hpa
    obtain ⟨p0, hp0, rfl⟩ := List.mem_map.mp hp
    cases hbeq : (p0.id == a) with
    | false => simp only [hbeq, Bool.false_eq_true, if_false] at hpa ⊢; exact h2 p0 hp0 hpa
    | true => simp [hbeq] at hpa
  · intro id hid
    obtain ⟨p0, hp0, hpid, hpa⟩ := h3 id (List.mem_cons_of_mem a hid)
    have hne : p0.id ≠ a := by
      intro hc
      have hida : id = a := by rw [← hpid, hc]
      exact hnotin (hida ▸ hid)
    exact ⟨p0, mem_updatePlayer_of_ne a _ hp0 hne, hpid, hpa⟩

theorem qd_setRole {players : List PlayerState} {queue log : List String}
    (pid role : String) (hrole : role ≠ "queue")
    (hact : ∀ p ∈ players, p.id = pid → p.active = true)
    (h : QueueDiscipline players queue log) :
    QueueDiscipline (updatePlayer players pid (fun p => { p with role := role }))
      queue log := by
  obtain ⟨h1, h2, h3, h4, h5⟩ := h
  refine ⟨?_, ?_, ?_, h4, h5⟩
  · rw [updatePlayer_map_id players pid (fun p => { p with role := role }) (fun p => rfl)]
    exact h1
  · intro p hp hpa
    obtain ⟨p0, hp0, rfl⟩ := List.mem_map.mp hp
    cases hbeq : (p0.id == pid) with
    | false => simp only [hbeq, Bool.false_eq_true, if_false] at hpa ⊢; exact h2 p0 hp0 hpa
    | true =>
      have ha := hact p0 hp0 (by simpa using hbeq)
      simp [hbeq, ha] at hpa
  · intro id hid
    obtain ⟨p0, hp0, hpid, hpa⟩ := h3 id hid
    have hne : p0.id ≠ pid := by
      intro hc
      have := hact p0 hp0 hc
      rw [this] at hpa
      cases hpa
    exact ⟨p0, mem_updatePlayer_of_ne pid _ hp0 hne, hpid, hpa⟩

theorem qd_entryPreserving {players : List PlayerState} {queue log : List String}
    (pid : String) (f : PlayerState → PlayerState)
    (hfid : ∀ p, (f p).id = p.id) (hfac : ∀ p, (f p).active = p.active)
    (hfro : ∀ p, (f p).role = p.role)
    (h : QueueDiscipline players queue log) :
    QueueDiscipline (updatePlayer players pid f) queue log := by
  obtain ⟨h1, h2, h3, h4, h5⟩ := h
  refine ⟨?_, ?_, ?_, h4, h5⟩
  · rw [updatePlayer_map_id players pid f hfid]; exact h1
  · intro p hp hpa
    obtain ⟨p0, hp0, rfl⟩ := List.mem_map.mp hp
    cases hbeq : (p0.id == pid) with
    | false => simp only [hbeq, Bool.false_eq_true, if_false] at hpa ⊢; exact h2 p0 hp0 hpa
    | true =>
      simp only [hbeq, if_true] at hpa ⊢
      rw [hfac] at hpa
      rw [hfro]
      exact h2 p0 hp0 hpa
  · intro id hid
    obtain ⟨p0, hp0, hpid, hpa⟩ := h3 id hid
    refine ⟨(if (p0.id == pid) = true then f p0 else p0),
      List.mem_map_of_mem _ hp0, ?_, ?_⟩
    · cases hbeq : (p0.id == pid) <;> simp [hbeq, hfid, hpid]
    · cases hbeq : (p0.id == pid) <;> simp [hbeq, hfac, hpa]

theorem qd_pushInactive {players : List PlayerState} {queue log : List String} (pid : String)
    (hwit : ∃ p ∈ players, p.id = pid ∧ p.active = false)
    (hnotin : pid ∉ queue)
    (h : QueueDiscipline players queue log) :
    QueueDiscipline players (queue ++ [pid]) (log ++ [pid]) := by
  obtain ⟨h1, h2, h3, h4, h5⟩ := h
  refine ⟨h1, h2, ?_, ?_, ?_⟩
  · intro id hid
    rcases List.mem_append.mp hid with hmem | hmem
    · exact h3 id hmem
    · have : id = pid := by simpa using hmem
      subst this
      exact hwit
  · simpa [List.nodup_append] using ⟨h4, hnotin⟩
  · exact List.Sublist.append h5 (List.Sublist.refl [pid])

theorem qd_appendFresh {players : List PlayerState} {queue log : List String}
    (newP : PlayerState) (hfresh : ∀ p ∈ players, p.id ≠ newP.id)
    (hina : newP.active = false) (hrole : newP.role = "queue")
    (h : QueueDiscipline players queue log) :
    QueueDiscipline (players ++ [newP]) queue log := by
  obtain ⟨h1, h2, h3, h4, h5⟩ := h
  refine ⟨?_, ?_, ?_, h4, h5⟩
  · rw [List.map_append]
    refine List.Nodup.append h1 (List.nodup_singleton _) ?_
    intro a ha hb
    obtain ⟨p, hp, rfl⟩ := List.mem_map.mp ha
    have : p.id = newP.id := by simpa using hb
    exact hfresh p hp this
  · intro p hp hpa
    rcases List.mem_append.mp hp with hmem | hmem
    · exact h2 p hmem hpa
    · have : p = newP := by simpa using hmem
      subst this
      exact hrole
  · intro id hid
    obtain ⟨p0, hp0, hpid, hpa⟩ := h3 id hid
    exact ⟨p0, List.mem_append_left _ hp0, hpid, hpa⟩

theorem qd_erase {players : List PlayerState} {queue log : List String} (a : String)
    (h : QueueDiscipline players queue log) :
    QueueDiscipline players (queue.erase a) log := by
  obtain ⟨h1, h2, h3, h4, h5⟩ := h
  exact ⟨h1, h2, fun id hid => h3 id (List.mem_of_mem_erase hid),
    h4.erase a, (List.erase_sublist a queue).trans h5⟩

theorem qd_filterOut {players : List PlayerState} {queue log : List String} (a : String)
    (hnotin : a ∉ queue)
    (h : QueueDiscipline players queue log) :
    QueueDiscipline (players.filter (fun p => ¬(p.id == a))) queue log := by
  obtain ⟨h1, h2, h3, h4, h5⟩ := h
  refine ⟨?_, ?_, ?_, h4, h5⟩
  · exact List.Nodup.sublist (List.Sublist.map _ (List.filter_sublist players)) h1
  · intro p hp hpa
    exact h2 p (List.mem_of_mem_filter hp) hpa
  · intro id hid
    obtain ⟨p0, hp0, hpid, hpa⟩ := h3 id hid
    have hne : p0.id ≠ a := by
      intro hc
      have : id = a := by rw [← hpid, hc]
      exact hnotin (this ▸ hid)
    refine ⟨p0, ?_, hpid, hpa⟩
    rw [List.mem_filter]
    exact ⟨hp0, by simpa using hne⟩

/-! Room-level frame facts: operations that do not touch the roster facts,
the queue or the enqueue log. -/

theorem updatePlayer_pos_rosterEntry (ps : List PlayerState) (pid : String) (x y z : ℚ) :
    (updatePlayer ps pid (fun p => { p with x := x, y := y, z := z })).map rosterEntry
      = ps.map rosterEntry :=
  updatePlayer_map_rosterEntry ps pid _ (fun p => rfl)

theorem updatePlayer_vel_rosterEntry (ps : List PlayerState) (pid : String) (vx vz : ℚ) :
    (updatePlayer ps pid (fun p => { p with vx := vx, vz := vz })).map rosterEntry
      = ps.map rosterEntry :=
  updatePlayer_map_rosterEntry ps pid _ (fun p => rfl)

theorem updatePlayer_jump_rosterEntry (ps : List PlayerState) (pid : String) (j : Bool) :
    (updatePlayer ps pid (fun p => { p with jumping := j })).map rosterEntry
      = ps.map rosterEntry :=
  updatePlayer_map_rosterEntry ps pid _ (fun p => rfl)

theorem updatePlayer_time_rosterEntry (ps : List PlayerState) (pid : String) (t : ℤ) :
    (updatePlayer ps pid (fun p => { p with timeAsRey := t })).map rosterEntry
      = ps.map rosterEntry :=
  updatePlayer_map_rosterEntry ps pid _ (fun p => rfl)

theorem setPlayerPosition_sameRoster (rs : RoomState) (pid role : String) :
    SameRoster rs (setPlayerPosition rs pid role) := by
  unfold setPlayerPosition
  split
  · exact sameRoster_refl rs
  · exact ⟨updatePlayer_map_rosterEntry _ _ _ (fun p => rfl), rfl, rfl⟩

theorem createPlayerBody_sameRoster (rs : RoomState) (pid : String) :
    SameRoster rs (createPlayerBody rs pid) := by
  unfold createPlayerBody
  split
  · exact sameRoster_refl rs
  · exact ⟨rfl, rfl, rfl⟩

theorem removeBody_sameRoster (rs : RoomState) (pid : String) :
    SameRoster rs (removeBody rs pid) := ⟨rfl, rfl, rfl⟩

theorem startNewServe_players (rs : RoomState) :
    (startNewServe rs).1.state.players = rs.state.players := by
  simp only [startNewServe]
  split <;> rfl

theorem startNewServe_queue (rs : RoomState) :
    (startNewServe rs).1.state.queue = rs.state.queue := by
  simp only [startNewServe]
  split <;> rfl

theorem startNewServe_log (rs : RoomState) :
    (startNewServe rs).1.enqueueLog = rs.enqueueLog := by
  simp only [startNewServe]
  split <;> rfl

theorem startNewServe_sameRoster (rs : RoomState) :
    SameRoster rs (startNewServe rs).1 :=
  ⟨by rw [startNewServe_players], by rw [startNewServe_queue], by rw [startNewServe_log]⟩

theorem startMatch_sameRoster (rs : RoomState) :
    SameRoster rs (startMatch rs).1 := by
  unfold startMatch
  exact startNewServe_sameRoster _

theorem performServe_sameRoster (pid : String) (rs : RoomState) :
    SameRoster rs (performServe pid rs).1 := by
  unfold performServe
  split
  · exact sameRoster_refl rs
  · exact ⟨rfl, rfl, rfl⟩

theorem handlePlayerAction_sameRoster (pid action : String) (rs : RoomState) :
    SameRoster rs (handlePlayerAction pid action rs).1 := by
  unfold handlePlayerAction
  simp only []
  repeat' split
  all_goals first
    | exact performServe_sameRoster _ _
    | exact sameRoster_refl rs
    | exact ⟨rfl, rfl, rfl⟩

theorem handlePlayerInput_sameRoster (pid : String) (input : InputMessage) (rs : RoomState) :
    SameRoster rs (handlePlayerInput pid input rs).1 := by
  unfold handlePlayerInput
  simp only []
  repeat' split
  all_goals first
    | exact sameRoster_refl rs
    | exact ⟨rfl, rfl, rfl⟩
    | (refine ⟨?_, rfl, rfl⟩
       simp only [updatePlayer_vel_rosterEntry, updatePlayer_jump_rosterEntry])
    | (refine sameRoster_trans ?_ (handlePlayerAction_sameRoster _ _ _)
       refine ⟨?_, rfl, rfl⟩
       simp only [updatePlayer_vel_rosterEntry, updatePlayer_jump_rosterEntry])

theorem onInputMessage_sameRoster (pid : String) (input : InputMessage) (rs : RoomState) :
    SameRoster rs (onInputMessage pid input rs).1 := by
  unfold onInputMessage
  split
  · exact sameRoster_refl rs
  · split
    · exact handlePlayerInput_sameRoster _ _ _
    · exact sameRoster_refl rs

theorem endMatch_sameRoster (rs : RoomState) :
    SameRoster rs (endMatch rs).1 := ⟨rfl, rfl, rfl⟩

theorem matchClockTick_sameRoster (rs : RoomState) :
    SameRoster rs (matchClockTick rs).1 := by
  unfold matchClockTick
  simp only []
  repeat' split
  all_goals first
    | exact sameRoster_refl rs
    | exact ⟨rfl, rfl, rfl⟩
    | (refine sameRoster_trans (?_ : SameRoster rs _) (endMatch_sameRoster _)
       refine ⟨?_, rfl, rfl⟩
       simp only [updatePlayer_time_rosterEntry])
    | (refine ⟨?_, rfl, rfl⟩
       simp only [updatePlayer_time_rosterEntry])

theorem foldl_sameRoster {α : Type} (f : RoomState → α → RoomState)
    (hstep : ∀ rs a, SameRoster rs (f rs a)) :
    ∀ (l : List α) (rs : RoomState), SameRoster rs (l.foldl f rs)
  | [], rs => sameRoster_refl rs
  | a :: l, rs => sameRoster_trans (hstep rs a) (foldl_sameRoster f hstep l (f rs a))

theorem updatePhysicsCopy_sameRoster (rs : RoomState) :
    SameRoster rs (updatePhysicsCopy rs) := by
  unfold updatePhysicsCopy
  refine sameRoster_trans (⟨rfl, rfl, rfl⟩ : SameRoster rs _) (foldl_sameRoster _ ?_ _ _)
  intro acc e
  simp only []
  split
  · split
    · split
      · exact ⟨updatePlayer_pos_rosterEntry _ _ _ _ _, rfl, rfl⟩
      · exact sameRoster_refl acc
    · exact sameRoster_refl acc
  · exact sameRoster_refl acc

theorem clampPlayerBody_sameRoster (rs : RoomState) (pid : String) :
    SameRoster rs (clampPlayerBody rs pid) := by
  unfold clampPlayerBody
  simp only []
  repeat' split
  all_goals first
    | exact sameRoster_refl rs
    | exact ⟨rfl, rfl, rfl⟩
    | (refine ⟨?_, rfl, rfl⟩
       simp only [updatePlayer_jump_rosterEntry])

theorem updateGameState_sameRoster (rs : RoomState) :
    SameRoster rs (updateGameState rs).1 := by
  unfold updateGameState
  simp only []
  refine sameRoster_trans
    (foldl_sameRoster clampPlayerBody clampPlayerBody_sameRoster
      (rs.playerBodies.map (fun e => e.1)) rs) ?_
  repeat' split
  all_goals first
    | exact sameRoster_refl _
    | exact ⟨rfl, rfl, rfl⟩
    | exact sameRoster_trans (startNewServe_sameRoster _) ⟨rfl, rfl, rfl⟩
    | exact sameRoster_trans (startNewServe_sameRoster _) (sameRoster_refl _)

/-! Queue-discipline preservation, room level: one lemma per operation that
does touch the roster, the queue or the log. -/

/-- The id/activity facts of a record (its rotation-invariant part). -/
def pairEntry (p : PlayerState) : String × Bool := (p.id, p.active)

theorem pairEntry_of_rosterEntry {ps qs : List PlayerState}
    (h : ps.map rosterEntry = qs.map rosterEntry) :
    ps.map pairEntry = qs.map pairEntry := by
  have h1 : ps.map pairEntry = (ps.map rosterEntry).map (fun e => (e.1, e.2.1)) := by
    rw [List.map_map]; rfl
  have h2 : qs.map pairEntry = (qs.map rosterEntry).map (fun e => (e.1, e.2.1)) := by
    rw [List.map_map]; rfl
  rw [h1, h2, h]

theorem updatePlayer_map_pairEntry (ps : List PlayerState) (pid : String)
    (f : PlayerState → PlayerState) (hf : ∀ p, pairEntry (f p) = pairEntry p) :
    (updatePlayer ps pid f).map pairEntry = ps.map pairEntry := by
  unfold updatePlayer
  rw [List.map_map]
  apply List.map_congr_left
  intro p _
  by_cases h : p.id = pid <;> simp [h, hf]

theorem activeOfId_of_pairEq {ps qs : List PlayerState} {pid : String}
    (hmap : qs.map pairEntry = ps.map pairEntry)
    (h : ∀ p ∈ ps, p.id = pid → p.active = true) :
    ∀ p ∈ qs, p.id = pid → p.active = true := by
  intro p hp hpid
  have : pairEntry p ∈ ps.map pairEntry := by
    rw [← hmap]
    exact List.mem_map_of_mem _ hp
  obtain ⟨q, hq, hq2⟩ := List.mem_map.mp this
  have hqid : q.id = p.id := congrArg (fun e => e.1) hq2
  have hqa : q.active = p.active := congrArg (fun e => e.2) hq2
  rw [← hqa]
  exact h q hq (hqid.trans hpid)

theorem setPlayerPosition_pairEntry (rs : RoomState) (pid role : String) :
    (setPlayerPosition rs pid role).state.players.map pairEntry
      = rs.state.players.map pairEntry :=
  pairEntry_of_rosterEntry (setPlayerPosition_sameRoster rs pid role).1

theorem rotateOne_pairEntry (rs : RoomState) (penalizedId fromRole toRole : String) :
    (rotateOne rs penalizedId fromRole toRole).1.state.players.map pairEntry
      = rs.state.players.map pairEntry := by
  unfold rotateOne
  repeat' split
  all_goals first
    | rfl
    | (rw [setPlayerPosition_pairEntry]
       exact updatePlayer_map_pairEntry _ _ _ (fun q => rfl))

theorem rotateOne_inv {rs : RoomState} {penalizedId fromRole toRole : String}
    (hfrom : fromRole ≠ "queue") (htole : toRole ≠ "queue")
    (h : RoomInv rs) : RoomInv (rotateOne rs penalizedId fromRole toRole).1 := by
  unfold rotateOne
  cases hfind : getPlayerByRole rs.state fromRole with
  | none => exact h
  | some p =>
    simp only []
    split
    · refine roomInv_of_sameRoster (setPlayerPosition_sameRoster _ _ _) ?_
      refine qd_setRole p.id toRole htole ?_ h
      intro q hq hqid
      have hpmem : p ∈ rs.state.players := List.mem_of_find?_eq_some hfind
      have hprole : p.role = fromRole := by simpa using List.find?_some hfind
      have hqp : q = p := mem_id_unique h.1 hq hpmem hqid
      subst hqp
      exact qd_active_of_role h hq (by rw [hprole]; exact hfrom)
    · exact h

theorem promoteFromQueue_inv {rs : RoomState} (h : RoomInv rs) :
    RoomInv (promoteFromQueue rs) := by
  unfold promoteFromQueue
  cases hq : rs.state.queue with
  | nil => exact h
  | cons nextPlayerId rest =>
    simp only []
    have hpop : QueueDiscipline rs.state.players rest rs.enqueueLog :=
      qd_pop (by rw [← hq]; exact h)
    split
    · exact hpop
    · refine roomInv_of_sameRoster
        (sameRoster_trans (setPlayerPosition_sameRoster _ _ _)
          (createPlayerBody_sameRoster _ _)) ?_
      exact qd_activate "mato" (by decide) (by rw [← hq]; exact h)

theorem eliminatePlayer_inv {rs : RoomState} {playerId : String}
    (hact : ∀ p ∈ rs.state.players, p.id = playerId → p.active = true)
    (h : RoomInv rs) : RoomInv (eliminatePlayer playerId rs).1 := by
  unfold eliminatePlayer
  cases hfind : findPlayer rs.state playerId with
  | none => exact h
  | some player =>
    simp only []
    refine promoteFromQueue_inv ?_
    have hpmem : player ∈ rs.state.players := List.mem_of_find?_eq_some hfind
    have hpid : player.id = playerId := by simpa using List.find?_some hfind
    refine qd_pushInactive playerId ?_ ?_ (qd_deactivate playerId h)
    · refine ⟨{ player with active := false, role := "queue" },
        mem_updatePlayer_self playerId _ hpmem hpid, hpid, rfl⟩
    · rw [← hpid]
      exact qd_not_mem_queue_of_active h hpmem (hact player hpmem hpid)


theorem rotateOne_inv_act {rs : RoomState} {penalizedId fromRole toRole : String}
    (hfrom : fromRole ≠ "queue") (htole : toRole ≠ "queue")
    (h : RoomInv rs)
    (hact : ∀ q ∈ rs.state.players, q.id = penalizedId → q.active = true) :
    RoomInv (rotateOne rs penalizedId fromRole toRole).1
    ∧ ∀ q ∈ (rotateOne rs penalizedId fromRole toRole).1.state.players,
        q.id = penalizedId → q.active = true :=
  ⟨rotateOne_inv hfrom htole h,
   activeOfId_of_pairEq (rotateOne_pairEntry _ _ _ _) hact⟩

theorem handleDoubleBouncePenalty_inv {role : String} {rs0 : RoomState}
    (hrole : role ≠ "queue") (h : RoomInv rs0) :
    RoomInv (handleDoubleBouncePenalty role rs0).1 := by
  unfold handleDoubleBouncePenalty
  simp only []
  have h' : RoomInv { rs0 with penaltyDispatches := rs0.penaltyDispatches + 1 } := h
  split
  · split
    · rename_i matoPlayer hfind
      split
      · refine roomInv_of_sameRoster (startNewServe_sameRoster _) ?_
        refine eliminatePlayer_inv ?_ h'
        intro q hq hqid
        have hpmem : matoPlayer ∈ rs0.state.players := List.mem_of_find?_eq_some hfind
        have hprole : matoPlayer.role = "mato" := by simpa using List.find?_some hfind
        have hqp : q = matoPlayer := mem_id_unique h.1 hq hpmem hqid
        subst hqp
        exact qd_active_of_role h hq (by rw [hprole]; decide)
      · refine roomInv_of_sameRoster (startNewServe_sameRoster _) ?_
        exact qd_deactivate matoPlayer.id h
    · exact roomInv_of_sameRoster (startNewServe_sameRoster _) h'
  · split
    · exact roomInv_of_sameRoster (startNewServe_sameRoster _) h'
    · rename_i penalized hfind
      have hpmem : penalized ∈ rs0.state.players := List.mem_of_find?_eq_some hfind
      have hprole : penalized.role = role := by simpa using List.find?_some hfind
      have hact0 : ∀ q ∈ rs0.state.players, q.id = penalized.id → q.active = true := by
        intro q hq hqid
        have hqp : q = penalized := mem_id_unique h.1 hq hpmem hqid
        subst hqp
        exact qd_active_of_role h hq (by rw [hprole]; exact hrole)
      refine roomInv_of_sameRoster
        (sameRoster_trans (setPlayerPosition_sameRoster _ _ _)
          (startNewServe_sameRoster _)) ?_
      refine qd_setRole penalized.id "mato" (by decide) ?_ ?_
      · exact activeOfId_of_pairEq (rotateOne_pairEntry _ _ _ _)
          (activeOfId_of_pairEq (rotateOne_pairEntry _ _ _ _)
            (activeOfId_of_pairEq (rotateOne_pairEntry _ _ _ _) hact0))
      · exact rotateOne_inv (by decide) (by decide)
          (rotateOne_inv (by decide) (by decide)
            (rotateOne_inv (by decide) (by decide) h'))

theorem getQuadrantRole_ne_queue (x z : ℚ) : getQuadrantRole x z ≠ "queue" := by
  unfold getQuadrantRole
  repeat' split
  all_goals decide

set_option maxHeartbeats 1000000 in
theorem handleBallBounce_inv {rs : RoomState} (h : RoomInv rs) :
    RoomInv (handleBallBounce rs).1 := by
  unfold handleBallBounce
  simp only []
  repeat' split
  all_goals first
    | exact handleDoubleBouncePenalty_inv (getQuadrantRole_ne_queue _ _) h
    | exact h

theorem onBallGroundCollision_inv {rs : RoomState} (h : RoomInv rs) :
    RoomInv (onBallGroundCollision rs).1 := by
  unfold onBallGroundCollision
  simp only []
  split
  · exact handleBallBounce_inv h
  · exact handleBallBounce_inv h


theorem firstRole_ne_queue {pred : String → Bool} {r : String} {t : List String}
    (heq : (["rey", "rey1", "rey2", "mato"].filter pred) = r :: t) : r ≠ "queue" := by
  have hmem : r ∈ ["rey", "rey1", "rey2", "mato"].filter pred := by
    rw [heq]; exact List.mem_cons_self r t
  have hm := List.mem_of_mem_filter hmem
  simp only [List.mem_cons, List.not_mem_nil, or_false] at hm
  rcases hm with rfl | rfl | rfl | rfl <;> decide

theorem checkAndStartGame_inv {rs : RoomState} (h : RoomInv rs) :
    RoomInv (checkAndStartGame rs).1 := by
  unfold checkAndStartGame
  simp only []
  repeat' split
  · exact roomInv_of_sameRoster (startMatch_sameRoster _) h
  · exact roomInv_of_sameRoster (startMatch_sameRoster _) h
  · rename_i nId rest hQ xo hF
    refine roomInv_of_sameRoster (startMatch_sameRoster _) ?_
    exact qd_pop (show QueueDiscipline rs.state.players (nId :: rest) rs.enqueueLog by
      rw [← hQ]; exact h)
  · rename_i frole tail havail x1 nId rest hQ xo v hF
    refine roomInv_of_sameRoster
      (sameRoster_trans (setPlayerPosition_sameRoster _ _ _)
        (sameRoster_trans (createPlayerBody_sameRoster _ _) (startMatch_sameRoster _))) ?_
    refine qd_activate frole (firstRole_ne_queue havail) ?_
    show QueueDiscipline rs.state.players (nId :: rest) rs.enqueueLog
    rw [← hQ]; exact h
  · exact roomInv_of_sameRoster (startMatch_sameRoster _) h
  · exact h
  · exact h
  · rename_i nId rest hQ xo hF
    exact qd_pop (show QueueDiscipline rs.state.players (nId :: rest) rs.enqueueLog by
      rw [← hQ]; exact h)
  · rename_i frole tail havail x1 nId rest hQ xo v hF
    refine roomInv_of_sameRoster
      (sameRoster_trans (setPlayerPosition_sameRoster _ _ _)
        (createPlayerBody_sameRoster _ _)) ?_
    refine qd_activate frole (firstRole_ne_queue havail) ?_
    show QueueDiscipline rs.state.players (nId :: rest) rs.enqueueLog
    rw [← hQ]; exact h
  · exact h


theorem onJoin_inv {rs : RoomState} {sessionId nickname : String}
    (fresh : ∀ p ∈ rs.state.players, p.id ≠ sessionId)
    (h : RoomInv rs) : RoomInv (onJoin sessionId nickname rs).1 := by
  unfold onJoin
  simp only []
  refine checkAndStartGame_inv ?_
  have hnotin : sessionId ∉ rs.state.queue := by
    intro hin
    obtain ⟨p, hp, hpid, hpa⟩ := h.2.2.1 sessionId hin
    exact fresh p hp hpid
  refine qd_pushInactive sessionId ?_ hnotin (qd_appendFresh _ fresh rfl rfl h)
  exact ⟨initPlayer sessionId
      (if nickname = "" then "Player" ++ sessionId.take 4 else nickname),
    List.mem_append_right _ (List.mem_singleton_self _), rfl, rfl⟩

theorem onLeave_inv {rs : RoomState} {sessionId : String}
    (h : RoomInv rs) : RoomInv (onLeave sessionId rs).1 := by
  unfold onLeave
  simp only []
  have hstep : ∀ X : RoomState, RoomInv X →
      QueueDiscipline (X.state.players.filter (fun p => ¬(p.id == sessionId)))
        (X.state.queue.erase sessionId) X.enqueueLog := by
    intro X hX
    refine qd_filterOut sessionId ?_ (qd_erase sessionId hX)
    intro hin
    exact ((List.Nodup.mem_erase_iff hX.2.2.2.1).mp hin).1 rfl
  repeat' split
  · rename_i player hfind hactive
    refine hstep _ (eliminatePlayer_inv ?_ h)
    intro q hq hqid
    have hpmem : player ∈ rs.state.players := List.mem_of_find?_eq_some hfind
    have hpid : player.id = sessionId := by simpa using List.find?_some hfind
    have hqp : q = player := mem_id_unique h.1 hq hpmem (hqid.trans hpid.symm)
    subst hqp
    exact hactive
  · exact hstep _ h
  · exact hstep _ h


/-- Every reachable room state satisfies the queue discipline. -/
theorem reachable_roomInv {rs : RoomState} (h : Reachable rs) : RoomInv rs := by
  induction h with
  | init =>
    refine ⟨List.nodup_nil, ?_, ?_, List.nodup_nil, List.Sublist.refl _⟩
    · intro p hp
      rw [show initialRoomState.state.players = [] from rfl] at hp
      cases hp
    · intro id hid
      rw [show initialRoomState.state.queue = [] from rfl] at hid
      cases hid
  | join rs sid nick hr fresh ih => exact onJoin_inv fresh ih
  | leave rs sid hr ih => exact onLeave_inv ih
  | input rs sid msg hr ih =>
    exact roomInv_of_sameRoster (onInputMessage_sameRoster _ _ _) ih
  | bounce rs hr ih => exact onBallGroundCollision_inv ih
  | clock rs hr ih => exact roomInv_of_sameRoster (matchClockTick_sameRoster _) ih
  | copyTick rs hr ih => exact roomInv_of_sameRoster (updatePhysicsCopy_sameRoster _) ih
  | clampTick rs hr ih => exact roomInv_of_sameRoster (updateGameState_sameRoster _) ih
  | envMotion rs rs1 hr hf ih =>
    refine roomInv_of_sameRoster ⟨?_, ?_, ?_⟩ ih
    · rw [hf.1]
    · rw [hf.1]
    · exact hf.2.2.2.2.2.2.1

/-- C7 (amended): in every reachable state the queue is sound but not
complete — every queued id belongs to an inactive (role `"queue"`) player and
every player record carrying a queued id is inactive, the queue has no
duplicates and lists ids in FIFO enqueue order (it is a sublist of the
chronological enqueue log); however the queue does not contain every
inactive player's id (the occupant vacated by a bottom-slot double bounce
with an empty queue stays outside it, per the separate counterexample). -/
theorem C7_queue_invariant_amended (rs : RoomState) (h : Reachable rs) :
    (∀ id ∈ rs.state.queue, ∀ p ∈ rs.state.players, p.id = id → p.active = false)
    ∧ (∀ id ∈ rs.state.queue, ∃ p ∈ rs.state.players, p.id = id ∧ p.active = false)
    ∧ rs.state.queue.Nodup
    ∧ rs.state.queue.Sublist rs.enqueueLog := by
  have hinv := reachable_roomInv h
  refine ⟨?_, hinv.2.2.1, hinv.2.2.2.1, hinv.2.2.2.2⟩
  intro id hid p hp hpid
  obtain ⟨q, hq, hqid, hqa⟩ := hinv.2.2.1 id hid
  have hpq : p = q := mem_id_unique hinv.1 hp hq (hpid.trans hqid.symm)
  rw [hpq]
  exact hqa

/-- Witness for the amended C7 theorem: the room right after a first player
joins is reachable, and its queue (now `["p1"]`) satisfies the discipline. -/
theorem C7_queue_invariant_witness :
    Reachable (onJoin "p1" "" initialRoomState).1
    ∧ ((∀ id ∈ (onJoin "p1" "" initialRoomState).1.state.queue,
          ∀ p ∈ (onJoin "p1" "" initialRoomState).1.state.players,
            p.id = id → p.active = false)
      ∧ (∀ id ∈ (onJoin "p1" "" initialRoomState).1.state.queue,
          ∃ p ∈ (onJoin "p1" "" initialRoomState).1.state.players,
            p.id = id ∧ p.active = false)
      ∧ (onJoin "p1" "" initialRoomState).1.state.queue.Nodup
      ∧ (onJoin "p1" "" initialRoomState).1.state.queue.Sublist
          (onJoin "p1" "" initialRoomState).1.enqueueLog) :=
  have hr : Reachable (onJoin "p1" "" initialRoomState).1 :=
    Reachable.join initialRoomState "p1" "" Reachable.init
      (by intro p hp
          rw [show initialRoomState.state.players = [] from rfl] at hp
          cases hp)
  ⟨hr, C7_queue_invariant_amended _ hr⟩


end ReyMato
